import Mathlib

/-!
Verification of the chart-volume forecasting pipeline
(Run_Actuals.py and Run_Forecast.py) against its specification.

The tabular data model is embedded shallowly:

* a period ("YYYY-MM" column label) is a `Ym` (year, month-of-year);
  lexicographic string sorting of well-formed "YYYY-MM" labels coincides
  with the lexicographic order on (year, month), which is what `ymLE` uses;
* a spreadsheet cell is a `Cell`: `na` (missing / NaN), `blank` (the empty
  string), `num q` (a numeric value, modelled as a rational), or `txt s`
  (other non-numeric text, which pandas `to_numeric(errors="coerce")`
  turns into NaN);
* a `StateRow` is one row of the State Summary sheet (identifier plus a
  cell per period), and a `DataFrame` is the list of period columns plus
  the list of rows.

Numeric values are modelled as rationals.  Python's `round` (banker's
rounding: nearest integer, ties to even) is `pyRound`.  After
`calculate_forecasts` coerces the month columns with
`pd.to_numeric(...).fillna(0)`, every cell it reads is `Cell.num`; the
`pd.isna` guards in the source are kept in the embedding (`Cell.isNA`)
even though they are vacuous on coerced cells.
-/

/-- A period: calendar year and month-of-year, the meaning of a "YYYY-MM"
column label. -/
structure Ym where
  y : Int
  m : Int
deriving DecidableEq, Repr

/-- Chronological (= lexicographic string) order on period labels. -/
def ymLE (a b : Ym) : Prop := a.y < b.y ∨ (a.y = b.y ∧ a.m ≤ b.m)

instance (a b : Ym) : Decidable (ymLE a b) := by
  unfold ymLE; infer_instance

/-- Insert into a chronologically sorted list (helper for `sortYm`). -/
def insertYm (a : Ym) : List Ym → List Ym
  | [] => [a]
  | b :: bs => if ymLE a b then a :: b :: bs else b :: insertYm a bs

/-- Chronological sort of period labels, modelling Python's
`list.sort()` / `sorted(...)` on "YYYY-MM" strings. -/
def sortYm : List Ym → List Ym
  | [] => []
  | a :: as => insertYm a (sortYm as)

/-- One spreadsheet cell. -/
inductive Cell where
  | na
  | blank
  | num (q : ℚ)
  | txt (s : String)
deriving DecidableEq, Repr

/-- Numeric coercion of a cell: `pd.to_numeric(errors="coerce").fillna(0)`
turns NaN, the empty string and non-numeric text into 0 and keeps numbers. -/
def Cell.toQ : Cell → ℚ
  | .num q => q
  | _ => 0

/-- The `pd.isna` test on a cell. -/
def Cell.isNA : Cell → Bool
  | .na => true
  | _ => false

/-- Whether a cell holds a numeric value. -/
def Cell.isNum : Cell → Bool
  | .num _ => true
  | _ => false

/-- One row of the State Summary sheet. -/
structure StateRow where
  state : String
  cells : Ym → Cell

/-- The State Summary sheet: its period columns and its rows. -/
structure DataFrame where
  cols : List Ym
  rows : List StateRow

/-- Positional access to a list (row lookup by index). -/
def nth? {α : Type} : List α → ℕ → Option α
  | [], _ => none
  | a :: _, 0 => some a
  | _ :: as, n + 1 => nth? as n

/-- Modify the element at one position of a list. -/
def modifyNth {α : Type} (f : α → α) : ℕ → List α → List α
  | _, [] => []
  | 0, a :: as => f a :: as
  | n + 1, a :: as => a :: modifyNth f n as

/-- The cell of row `i` at period `m` (the `na` default is never reached
under the in-range hypotheses of the theorems below). -/
def cellAt (df : DataFrame) (i : ℕ) (m : Ym) : Cell :=
  match nth? df.rows i with
  | some r => r.cells m
  | none => .na

/-- The identifier of row `i`. -/
def stateAt (df : DataFrame) (i : ℕ) : String :=
  match nth? df.rows i with
  | some r => r.state
  | none => ""

/-- Update one cell of a row. -/
def setCell (r : StateRow) (m : Ym) (c : Cell) : StateRow :=
  { r with cells := fun m2 => if m2 = m then c else r.cells m2 }

/-- The first row whose identifier is `s`
(models `df[df[state_col] == s]` followed by `.values[0]`). -/
def findRow (df : DataFrame) (s : String) : Option StateRow :=
  df.rows.find? (fun r => r.state == s)

/-- A row is an ordinary region row: neither TOTAL nor MEMBERSHIP
(`state in ["TOTAL", "MEMBERSHIP"]` is the source's skip test). -/
def isOrdinary (r : StateRow) : Bool :=
  !(r.state == "TOTAL") && !(r.state == "MEMBERSHIP")

/-- TOTAL-row test used by the month classifier:
`pd.isna(value) or value == "" or value == 0`. -/
def toForecastTotal (c : Cell) : Prop :=
  c = .na ∨ c = .blank ∨ c = .num 0

instance (c : Cell) : Decidable (toForecastTotal c) := by
  unfold toForecastTotal; infer_instance

/-- `get_previous_month` from Run_Forecast.py. -/
def get_previous_month (year month : Int) : Int × Int :=
  if month = 1 then (year - 1, 12) else (year, month - 1)

/-- Previous period, via `get_previous_month` and
`get_year_month_string`. -/
def prevYm (x : Ym) : Ym :=
  ⟨(get_previous_month x.y x.m).1, (get_previous_month x.y x.m).2⟩

/-- `SPECIAL_FORECAST_MONTH = "2025-08"`, the new-project-year month. -/
def specialMonth : Ym := ⟨2025, 8⟩

/-- `identify_months_to_forecast`: sort the month columns, then classify
each by the TOTAL row (missing / blank / zero means needs forecasting);
returns (month_columns, actual_months, forecast_months, latest_actual).
Without a TOTAL row both classification lists stay empty. -/
def identify_months_to_forecast (df : DataFrame) :
    List Ym × List Ym × List Ym × Option Ym :=
  let months := sortYm df.cols
  match findRow df "TOTAL" with
  | none => (months, [], [], none)
  | some tr =>
      let fc := months.filter (fun m => decide (toForecastTotal (tr.cells m)))
      let ac := months.filter (fun m => !decide (toForecastTotal (tr.cells m)))
      (months, ac, fc, ac.getLast?)

/-- The column-coercion preamble of `calculate_forecasts`:
for every month of `all_months` that is a column, apply
`pd.to_numeric(errors="coerce").fillna(0)` to that column. -/
def coerceCols (am : List Ym) (df : DataFrame) : DataFrame :=
  { cols := df.cols
    rows := df.rows.map fun r =>
      { r with cells := fun m =>
          if m ∈ am ∧ m ∈ df.cols then .num ((r.cells m).toQ) else r.cells m } }

/-- The `prev_year_membership != 0 and not pd.isna(prev_year_membership)`
guard on a (coerced) membership cell. -/
def memDenomOk (c : Cell) : Prop := c.toQ ≠ 0 ∧ c.isNA = false

instance (c : Cell) : Decidable (memDenomOk c) := by
  unfold memDenomOk; infer_instance

/-- Standard-policy membership ratio: `MEMBERSHIP[prev] / MEMBERSHIP[smly]`
when the denominator passes the guard, else the default 1.0; without a
MEMBERSHIP row the default 1.0 is used. -/
def stdMembershipRatio (mrow : Option StateRow) (prev smly : Ym) : ℚ :=
  match mrow with
  | none => 1
  | some r =>
      if memDenomOk (r.cells smly) then (r.cells prev).toQ / (r.cells smly).toQ
      else 1

/-- New-cycle membership adjustment for 2025-08: ratio of the latest
actual membership to the 2024-08 membership, projected forward and
normalised again exactly as the source writes it
(`ratio = cm / pym; est = pym * ratio; adj = est / pym`). -/
def specialAdjustment (mrow : Option StateRow) (la pySM : Ym) : ℚ :=
  match mrow with
  | none => 1
  | some r =>
      if memDenomOk (r.cells pySM) then
        let ratio := (r.cells la).toQ / (r.cells pySM).toQ
        let est := (r.cells pySM).toQ * ratio
        est / (r.cells pySM).toQ
      else 1

/-- Python's `max` on two rationals. -/
def pyMax (a b : ℚ) : ℚ := if a < b then b else a

/-- Python's `max` on two integers. -/
def pyMaxZ (a b : ℤ) : ℤ := if a < b then b else a

/-- Python's `round` to the nearest integer, ties to even. -/
def pyRound (x : ℚ) : ℤ :=
  let f : ℤ := Rat.floor x
  let r : ℚ := x - (f : ℚ)
  if r < 1 / 2 then f
  else if 1 / 2 < r then f + 1
  else if f % 2 = 0 then f else f + 1

/-- Standard-policy per-region value (lines 244-259 of Run_Forecast.py):
missing inputs write 0, otherwise
`round(max(0, current + (last_year_change * membership_ratio)))`. -/
def stdRowValue (ratio : ℚ) (r : StateRow) (prev smly ply : Ym) : ℚ :=
  if (r.cells prev).isNA = true ∨ (r.cells smly).isNA = true ∨
      (r.cells ply).isNA = true then 0
  else
    ((pyRound (pyMax 0 ((r.cells prev).toQ +
        ((r.cells smly).toQ - (r.cells ply).toQ) * ratio)) : ℤ) : ℚ)

/-- New-cycle per-region value (lines 184-194 of Run_Forecast.py):
missing input writes 0, otherwise
`max(0, round(prev_year_value * membership_adjustment))`. -/
def specialRowValue (adj : ℚ) (r : StateRow) (pySM : Ym) : ℚ :=
  if (r.cells pySM).isNA = true then 0
  else ((pyMaxZ 0 (pyRound ((r.cells pySM).toQ * adj)) : ℤ) : ℚ)

/-- Write cell (row `i`, period `m`); models `df.at[idx, month] = v`,
including pandas enlargement when `m` is not yet a column (the new column
holds NaN in every other row). -/
def writeAt (df : DataFrame) (i : ℕ) (m : Ym) (c : Cell) : DataFrame :=
  if m ∈ df.cols then
    { df with rows := modifyNth (fun r => setCell r m c) i df.rows }
  else
    { cols := df.cols ++ [m]
      rows := modifyNth (fun r => setCell r m c) i
        (df.rows.map fun r => setCell r m .na) }

/-- Create the forecast column filled with 0 if it does not exist
(lines 234-236 of Run_Forecast.py, standard branch only). -/
def ensureCol0 (df : DataFrame) (m : Ym) : DataFrame :=
  if m ∈ df.cols then df
  else
    { cols := df.cols ++ [m]
      rows := df.rows.map fun r => setCell r m (.num 0) }

/-- Sequential pass over the given row indices: each ordinary region row
receives its forecast value at period `fm`
(the `for idx, row in df.iterrows()` loop). -/
def rowsLoop (fm : Ym) (val : StateRow → ℚ) : List ℕ → DataFrame → DataFrame
  | [], df => df
  | i :: is, df =>
      rowsLoop fm val is
        (match nth? df.rows i with
         | none => df
         | some r =>
             if isOrdinary r = true then writeAt df i fm (.num (val r)) else df)

/-- Forecast every ordinary region row at period `fm`. -/
def forEachOrdinary (fm : Ym) (val : StateRow → ℚ) (df : DataFrame) : DataFrame :=
  rowsLoop fm val (List.range df.rows.length) df

/-- Index of the first TOTAL row (`df[df[state_col] == "TOTAL"].index`,
first entry). -/
def findTotalIdx : List StateRow → Option ℕ
  | [] => none
  | r :: rs =>
      if r.state == "TOTAL" then some 0
      else (findTotalIdx rs).map (· + 1)

/-- Recompute the TOTAL row at period `fm` as the sum over the rows that
are neither TOTAL nor MEMBERSHIP (lines 266-273 of Run_Forecast.py; the
pandas column sum skips NaN, which `Cell.toQ` reproduces). -/
def recomputeTotal (fm : Ym) (df : DataFrame) : DataFrame :=
  match findTotalIdx df.rows with
  | none => df
  | some ti =>
      let s := ((df.rows.filter (fun r => isOrdinary r)).map
        (fun r => (r.cells fm).toQ)).sum
      writeAt df ti fm (.num s)

/-- One iteration of the `for forecast_month in sorted(forecast_months)`
loop: the new-cycle branch for 2025-08, the standard branch otherwise,
each guarded by its reference-period availability check. -/
def forecastStep (am : List Ym) (la : Ym) (mrow : Option StateRow)
    (fm : Ym) (df : DataFrame) : DataFrame :=
  if fm = specialMonth then
    let pySM : Ym := ⟨2024, 8⟩
    if pySM ∈ am then
      let adj := specialAdjustment mrow la pySM
      recomputeTotal fm (forEachOrdinary fm (fun r => specialRowValue adj r pySM) df)
    else df
  else
    let prev := prevYm fm
    let pym : Ym := ⟨fm.y - 1, fm.m⟩
    let ply := prevYm ⟨fm.y - 1, fm.m⟩
    if prev ∈ am ∧ pym ∈ am ∧ ply ∈ am then
      let ratio := stdMembershipRatio mrow prev pym
      recomputeTotal fm
        (forEachOrdinary fm (fun r => stdRowValue ratio r prev pym ply)
          (ensureCol0 df fm))
    else df

/-- `calculate_forecasts`: coerce the month columns to numbers, snapshot
the MEMBERSHIP row, process the forecast months in chronological order,
then put the columns back in chronological order. -/
def calculate_forecasts (df : DataFrame) (all_months forecast_months : List Ym)
    (latest_actual : Ym) : DataFrame :=
  let df1 := coerceCols all_months df
  let mrow := findRow df1 "MEMBERSHIP"
  let df2 := (sortYm forecast_months).foldl
    (fun d fm => forecastStep all_months latest_actual mrow fm d) df1
  { df2 with cols := sortYm df2.cols }

/-- The decision logic of `main` in Run_Forecast.py, as a function from
the loaded matrix to (success flag, forecast artifact written if any):
no forecast months means success with no write; forecast months but no
latest actual means failure; otherwise the forecasts are computed. -/
def forecastMain (df : DataFrame) : Bool × Option DataFrame :=
  let r := identify_months_to_forecast df
  if r.2.2.1 = [] then (true, none)
  else
    match r.2.2.2 with
    | none => (false, none)
    | some l => (true, some (calculate_forecasts df r.1 r.2.2.1 l))

/-- The State Summary matrix built by Run_Actuals.py: the region rows,
then a TOTAL row holding per-period sums of the numerically coerced
region cells, then the externally supplied MEMBERSHIP row. -/
def buildActuals (regions : List StateRow) (mem : Ym → Cell)
    (months : List Ym) : DataFrame :=
  { cols := months
    rows := regions ++
      [ { state := "TOTAL"
          cells := fun m => .num ((regions.map (fun r => (r.cells m).toQ)).sum) },
        { state := "MEMBERSHIP", cells := mem } ] }

/-- The sum of the ordinary regions' (numerically read) values at one
period. -/
def ordSum (df : DataFrame) (m : Ym) : ℚ :=
  ((df.rows.filter (fun r => isOrdinary r)).map (fun r => (r.cells m).toQ)).sum

/-- The §3 invariant: the TOTAL row's value at every period column equals
the sum of the ordinary regions' (numerically read) values there. -/
def totalsInvariant (df : DataFrame) : Prop :=
  ∀ m ∈ df.cols, ∀ tr, findRow df "TOTAL" = some tr →
    (tr.cells m).toQ = ordSum df m

/-- The state of the matrix inside `calculate_forecasts` after the
column coercion and the processing of the chronological prefix `pre` of
the forecast months (the reference state in which a later forecast
month reads its inputs). -/
def runPrefix (df : DataFrame) (am : List Ym) (la : Ym) (pre : List Ym) : DataFrame :=
  pre.foldl
    (fun d fm => forecastStep am la (findRow (coerceCols am df) "MEMBERSHIP") fm d)
    (coerceCols am df)

/-- The membership ratio exactly as the specification words it: the
ratio of the membership at `prev` to the membership at `smly` when that
denominator is present and non-zero, and 1.0 otherwise (an absent
membership value coerces to 0, hence is never a usable denominator). -/
def claimMembershipRatio (mrow : Option StateRow) (prev smly : Ym) : ℚ :=
  match mrow with
  | none => 1
  | some r =>
      if (r.cells smly).toQ ≠ 0 then (r.cells prev).toQ / (r.cells smly).toQ
      else 1

/-- The new-cycle membership adjustment exactly as the claim words it:
the plain ratio `MEMBERSHIP[latest_actual] / MEMBERSHIP[smly]` when the
denominator is present and non-zero, and 1.0 otherwise. -/
def claimAdjustment (mrow : Option StateRow) (la pySM : Ym) : ℚ :=
  match mrow with
  | none => 1
  | some r =>
      if (r.cells pySM).toQ ≠ 0 then (r.cells la).toQ / (r.cells pySM).toQ
      else 1

/-- The value the standard policy writes for one region row at forecast
month `fm` (membership snapshot `mr`). -/
def stdPolicyValue (mr : Option StateRow) (r : StateRow) (fm : Ym) : ℚ :=
  stdRowValue (stdMembershipRatio mr (prevYm fm) ⟨fm.y - 1, fm.m⟩)
    r (prevYm fm) ⟨fm.y - 1, fm.m⟩ (prevYm ⟨fm.y - 1, fm.m⟩)

/-- The value the new-cycle policy writes for one region row at the
2025-08 boundary month. -/
def specialPolicyValue (mr : Option StateRow) (la : Ym) (r : StateRow) : ℚ :=
  specialRowValue (specialAdjustment mr la ⟨2024, 8⟩) r ⟨2024, 8⟩

/-- What the standard-formula claim asserts of one region row: the cell
written for the forecast month equals
round(max(0, prev + (smly - ply) * membership_ratio)), with the
membership ratio worded as in the specification. -/
def stdFormulaSpec (df : DataFrame) (am fms : List Ym) (la fm : Ym)
    (i : ℕ) (vp vs vq : ℚ) : Prop :=
  cellAt (calculate_forecasts df am fms la) i fm =
    .num ((pyRound (pyMax 0 (vp + (vs - vq) *
      claimMembershipRatio (findRow (coerceCols am df) "MEMBERSHIP")
        (prevYm fm) ⟨fm.y - 1, fm.m⟩)) : ℤ) : ℚ)

/-- What the new-cycle claim asserts of one region row: the cell written
for 2025-08 equals round(max(0, smly * membership_adjustment)), with the
adjustment collapsed to the plain ratio as the claim words it. -/
def newCycleSpec (df : DataFrame) (am fms : List Ym) (la : Ym)
    (i : ℕ) (v : ℚ) : Prop :=
  cellAt (calculate_forecasts df am fms la) i specialMonth =
    .num ((pyRound (pyMax 0 (v *
      claimAdjustment (findRow (coerceCols am df) "MEMBERSHIP") la
        ⟨2024, 8⟩)) : ℤ) : ℚ)

/-- What the non-negativity claim asserts of one written forecast cell:
it holds a non-negative integer. -/
def nonNegSpec (df : DataFrame) (am fms : List Ym) (la : Ym)
    (i : ℕ) (fm : Ym) : Prop :=
  ∃ n : ℕ, cellAt (calculate_forecasts df am fms la) i fm = .num ((n : ℕ) : ℚ)

/-- What the frame claim asserts of `calculate_forecasts`: identifiers
are untouched; cells of non-forecast period columns are exactly the
numeric coercion of the input (numeric values preserved, blank and
non-numeric cells becoming 0); and every MEMBERSHIP row is likewise
only coerced, never forecast, in every period column. -/
def frameSpec (df : DataFrame) (am fms : List Ym) (la : Ym) : Prop :=
  (calculate_forecasts df am fms la).rows.length = df.rows.length ∧
  (∀ j, stateAt (calculate_forecasts df am fms la) j = stateAt df j) ∧
  (∀ m, m ∈ df.cols → m ∉ fms → ∀ j, j < df.rows.length →
    cellAt (calculate_forecasts df am fms la) j m = .num ((cellAt df j m).toQ)) ∧
  (∀ j, j < df.rows.length → stateAt df j = "MEMBERSHIP" → ∀ m, m ∈ df.cols →
    cellAt (calculate_forecasts df am fms la) j m = .num ((cellAt df j m).toQ))

/-- What the skip claim asserts of a skipped forecast month: every row's
cell in that column is exactly the numeric coercion of the input — no
forecast value was written there. -/
def skippedPeriodSpec (df : DataFrame) (am fms : List Ym) (la fm : Ym) : Prop :=
  ∀ j, j < df.rows.length →
    cellAt (calculate_forecasts df am fms la) j fm = .num ((cellAt df j fm).toQ)

/-! ### Example matrices used by the witnesses and counterexamples -/

/-- Shorthand row constructor for the example matrices. -/
def mkRow (s : String) (f : Ym → Cell) : StateRow := ⟨s, f⟩

/-- Classifier example: three unsorted period columns whose TOTAL cells
are a number, a blank and an exact zero. -/
def exClassifierTr : StateRow :=
  mkRow "TOTAL" fun m =>
    if m = ⟨2024, 1⟩ then .num 7
    else if m = ⟨2024, 2⟩ then .blank
    else if m = ⟨2024, 5⟩ then .num 0
    else .na

/-- Classifier example matrix (columns deliberately out of order). -/
def exClassifierDf : DataFrame :=
  { cols := [⟨2024, 5⟩, ⟨2024, 1⟩, ⟨2024, 2⟩]
    rows := [mkRow "AL" (fun _ => .num 3), exClassifierTr] }

/-- Idempotence example: every TOTAL cell present and non-zero. -/
def exIdemTr : StateRow := mkRow "TOTAL" fun _ => .num 7

/-- Idempotence example matrix. -/
def exIdemDf : DataFrame :=
  { cols := [⟨2024, 1⟩, ⟨2024, 2⟩]
    rows := [mkRow "AL" (fun _ => .num 3), exIdemTr] }

/-- A matrix with data rows but no TOTAL row. -/
def exNoTotalRowDf : DataFrame :=
  { cols := [⟨2024, 1⟩], rows := [mkRow "AL" (fun _ => .num 5)] }

/-- A matrix whose TOTAL row is zero everywhere: a forecast month exists
but no actual month does. -/
def exNoActualDf : DataFrame :=
  { cols := [⟨2024, 1⟩]
    rows := [mkRow "AL" (fun _ => .num 5), mkRow "TOTAL" (fun _ => .num 0)] }

/-- Standard-formula example months (the matrix columns, sorted). -/
def exStdAm : List Ym := [⟨2024, 6⟩, ⟨2024, 7⟩, ⟨2025, 6⟩, ⟨2025, 7⟩]

/-- Standard-formula example region row: prev = 100,
sameMonthLastYear = 120, prevOfLastYear = 100. -/
def exStdRow0 : StateRow :=
  mkRow "AL" fun m =>
    if m = ⟨2025, 6⟩ then .num 100
    else if m = ⟨2024, 7⟩ then .num 120
    else if m = ⟨2024, 6⟩ then .num 100
    else .na

/-- Standard-formula example matrix: 2025-07 needs forecasting,
membership 1000 at prev and 900 at sameMonthLastYear. -/
def exStdDf : DataFrame :=
  { cols := exStdAm
    rows := [exStdRow0,
      mkRow "TOTAL" (fun m => if m = ⟨2025, 7⟩ then .num 0 else .num 5),
      mkRow "MEMBERSHIP" (fun m =>
        if m = ⟨2025, 6⟩ then .num 1000
        else if m = ⟨2024, 7⟩ then .num 900
        else .num 1)] }

/-- The example region row as the coercion preamble leaves it. -/
def exStdCoercedRow : StateRow :=
  { state := "AL"
    cells := fun m =>
      if m ∈ exStdAm ∧ m ∈ exStdDf.cols then .num ((exStdRow0.cells m).toQ)
      else exStdRow0.cells m }

/-- New-cycle example months. -/
def exNewAm : List Ym := [⟨2024, 8⟩, ⟨2025, 7⟩, ⟨2025, 8⟩]

/-- New-cycle example region row: 200 at 2024-08. -/
def exNewRow0 : StateRow :=
  mkRow "AL" fun m =>
    if m = ⟨2024, 8⟩ then .num 200
    else if m = ⟨2025, 7⟩ then .num 7
    else .na

/-- New-cycle example matrix: 2025-08 needs forecasting, membership
1100 at the latest actual (2025-07) and 1000 at 2024-08. -/
def exNewDf : DataFrame :=
  { cols := exNewAm
    rows := [exNewRow0,
      mkRow "TOTAL" (fun m => if m = ⟨2025, 8⟩ then .na else .num 5),
      mkRow "MEMBERSHIP" (fun m =>
        if m = ⟨2025, 7⟩ then .num 1100
        else if m = ⟨2024, 8⟩ then .num 1000
        else .num 1)] }

/-- The new-cycle example region row as the coercion preamble leaves it. -/
def exNewCoercedRow : StateRow :=
  { state := "AL"
    cells := fun m =>
      if m ∈ exNewAm ∧ m ∈ exNewDf.cols then .num ((exNewRow0.cells m).toQ)
      else exNewRow0.cells m }

/-- Missing-cell example: the region's prevOfLastYear cell (2024-06) is
absent; prev = 100 and sameMonthLastYear = 120 are present; there is no
MEMBERSHIP row (ratio defaults to 1). -/
def exMissRow0 : StateRow :=
  mkRow "AL" fun m =>
    if m = ⟨2025, 6⟩ then .num 100
    else if m = ⟨2024, 7⟩ then .num 120
    else .na

/-- Missing-cell example matrix. -/
def exMissDf : DataFrame := { cols := exStdAm, rows := [exMissRow0] }

/-- The missing-cell example region row after coercion. -/
def exMissCoercedRow : StateRow :=
  { state := "AL"
    cells := fun m =>
      if m ∈ exStdAm ∧ m ∈ exMissDf.cols then .num ((exMissRow0.cells m).toQ)
      else exMissRow0.cells m }

/-- Skip example months: 2023-05 (whose reference periods are outside
the matrix) plus the standard-formula months. -/
def exSkipAm : List Ym :=
  [⟨2023, 5⟩, ⟨2024, 6⟩, ⟨2024, 7⟩, ⟨2025, 6⟩, ⟨2025, 7⟩]

/-- Skip example region row (blank at the skipped month 2023-05). -/
def exSkipRow0 : StateRow :=
  mkRow "AL" fun m =>
    if m = ⟨2025, 6⟩ then .num 100
    else if m = ⟨2024, 7⟩ then .num 120
    else if m = ⟨2024, 6⟩ then .num 100
    else if m = ⟨2023, 5⟩ then .blank
    else .na

/-- Skip example matrix: both 2023-05 and 2025-07 need forecasting, but
2023-05's reference periods do not exist in the period range. -/
def exSkipDf : DataFrame :=
  { cols := exSkipAm
    rows := [exSkipRow0,
      mkRow "TOTAL" (fun m =>
        if m = ⟨2023, 5⟩ then .num 0
        else if m = ⟨2025, 7⟩ then .num 0
        else .num 5)] }

/-! ### Order and sorting lemmas for period labels -/

theorem ymLE_refl (a : Ym) : ymLE a a := by
  unfold ymLE; omega

theorem ymLE_trans {a b c : Ym} (h1 : ymLE a b) (h2 : ymLE b c) : ymLE a c := by
  unfold ymLE at *; omega

theorem ymLE_total (a b : Ym) : ymLE a b ∨ ymLE b a := by
  unfold ymLE; omega

theorem mem_insertYm {a b : Ym} {l : List Ym} :
    b ∈ insertYm a l ↔ b = a ∨ b ∈ l := by
  induction l with
  | nil => simp [insertYm]
  | cons c cs ih =>
      by_cases h : ymLE a c
      · simp [insertYm, h]
      · simp only [insertYm, if_neg h, List.mem_cons, ih]
        tauto

theorem mem_sortYm {a : Ym} {l : List Ym} : a ∈ sortYm l ↔ a ∈ l := by
  induction l with
  | nil => simp [sortYm]
  | cons b bs ih => simp [sortYm, mem_insertYm, ih]

theorem pairwise_insertYm {a : Ym} {l : List Ym}
    (h : l.Pairwise ymLE) : (insertYm a l).Pairwise ymLE := by
  induction l with
  | nil => simp [insertYm]
  | cons b bs ih =>
      rcases List.pairwise_cons.mp h with ⟨hb, hbs⟩
      by_cases hab : ymLE a b
      · simp only [insertYm, if_pos hab]
        refine List.pairwise_cons.mpr ⟨?_, h⟩
        intro c hc
        rcases List.mem_cons.mp hc with rfl | hc
        · exact hab
        · exact ymLE_trans hab (hb c hc)
      · simp only [insertYm, if_neg hab]
        refine List.pairwise_cons.mpr ⟨?_, ih hbs⟩
        intro c hc
        rcases mem_insertYm.mp hc with hceq | hc
        · rw [hceq]
          rcases ymLE_total a b with h1 | h1
          · exact absurd h1 hab
          · exact h1
        · exact hb c hc

theorem pairwise_sortYm (l : List Ym) : (sortYm l).Pairwise ymLE := by
  induction l with
  | nil => simp [sortYm]
  | cons a as ih => exact pairwise_insertYm ih

theorem pairwise_le_getLast {l : List Ym} {x : Ym}
    (hs : l.Pairwise ymLE) (hx : l.getLast? = some x) :
    ∀ m ∈ l, ymLE m x := by
  induction l with
  | nil => simp at hx
  | cons a as ih =>
      rcases List.pairwise_cons.mp hs with ⟨ha, has⟩
      intro m hm
      cases as with
      | nil =>
          simp [List.getLast?] at hx
          simp at hm
          subst hx; subst hm
          exact ymLE_refl _
      | cons b bs =>
          rw [List.getLast?_cons_cons] at hx
          rcases List.mem_cons.mp hm with rfl | hm
          · have hxmem : x ∈ b :: bs := by
              have := List.getLast?_eq_getLast (b :: bs) (by simp)
              rw [this] at hx
              injection hx with hx
              subst hx
              exact List.getLast_mem _
            exact ha x hxmem
          · exact ih has hx m hm

theorem mem_of_getLastYm {l : List Ym} {x : Ym} (h : l.getLast? = some x) :
    x ∈ l := by
  cases l with
  | nil => simp at h
  | cons a as =>
      have hne : a :: as ≠ [] := by simp
      rw [List.getLast?_eq_getLast _ hne] at h
      injection h with h
      exact h ▸ List.getLast_mem hne

/-! ### Unfolding lemmas for the month classifier -/

theorem identify_eq_of_total (df : DataFrame) (tr : StateRow)
    (htr : findRow df "TOTAL" = some tr) :
    identify_months_to_forecast df =
      (sortYm df.cols,
       (sortYm df.cols).filter (fun m => !decide (toForecastTotal (tr.cells m))),
       (sortYm df.cols).filter (fun m => decide (toForecastTotal (tr.cells m))),
       ((sortYm df.cols).filter
         (fun m => !decide (toForecastTotal (tr.cells m)))).getLast?) := by
  unfold identify_months_to_forecast
  rw [htr]

theorem identify_eq_of_no_total (df : DataFrame)
    (htr : findRow df "TOTAL" = none) :
    identify_months_to_forecast df = (sortYm df.cols, [], [], none) := by
  unfold identify_months_to_forecast
  rw [htr]

theorem identify_latest_eq_getLast (df : DataFrame) :
    (identify_months_to_forecast df).2.2.2 =
      ((identify_months_to_forecast df).2.1).getLast? := by
  cases htr : findRow df "TOTAL" with
  | none => rw [identify_eq_of_no_total df htr]; rfl
  | some tr => rw [identify_eq_of_total df tr htr]

/-- What the claim about the month classifier asserts of a matrix `df`
with TOTAL row `tr`: both classification lists are chronologically
sorted; a period is a forecast period exactly when it is a column whose
TOTAL cell is missing, blank or exactly zero; a period is an actual
period exactly when it is a column and not so; and the latest actual is
the chronologically last actual period. -/
def monthClassifierSpec (df : DataFrame) (tr : StateRow) : Prop :=
  ((identify_months_to_forecast df).2.2.1).Pairwise ymLE ∧
  ((identify_months_to_forecast df).2.1).Pairwise ymLE ∧
  (∀ m : Ym, m ∈ (identify_months_to_forecast df).2.2.1 ↔
    m ∈ df.cols ∧
      (tr.cells m = .na ∨ tr.cells m = .blank ∨ tr.cells m = .num 0)) ∧
  (∀ m : Ym, m ∈ (identify_months_to_forecast df).2.1 ↔
    m ∈ df.cols ∧
      ¬(tr.cells m = .na ∨ tr.cells m = .blank ∨ tr.cells m = .num 0)) ∧
  (identify_months_to_forecast df).2.2.2 =
    ((identify_months_to_forecast df).2.1).getLast? ∧
  (∀ x : Ym, (identify_months_to_forecast df).2.2.2 = some x →
    x ∈ (identify_months_to_forecast df).2.1 ∧
      ∀ m ∈ (identify_months_to_forecast df).2.1, ymLE m x)

/-- C3: for every VolumeMatrix with a TOTAL row, the classifier
partitions the period columns into chronologically sorted
actual and forecast lists, a period being a forecast period exactly when
its TOTAL cell is missing (NaN), blank, or exactly zero, and an actual
period otherwise; latest_actual is the chronologically last actual
period. -/
theorem month_classifier_partition (df : DataFrame) (tr : StateRow)
    (htr : findRow df "TOTAL" = some tr) : monthClassifierSpec df tr := by
  have he := identify_eq_of_total df tr htr
  unfold monthClassifierSpec
  rw [he]
  refine ⟨?_, ?_, ?_, ?_, rfl, ?_⟩
  · exact List.Pairwise.sublist (List.filter_sublist _) (pairwise_sortYm _)
  · exact List.Pairwise.sublist (List.filter_sublist _) (pairwise_sortYm _)
  · intro m
    simp [List.mem_filter, mem_sortYm, toForecastTotal]
  · intro m
    simp [List.mem_filter, mem_sortYm, toForecastTotal]
  · intro x hx
    refine ⟨mem_of_getLastYm hx, ?_⟩
    exact pairwise_le_getLast
      (List.Pairwise.sublist (List.filter_sublist _) (pairwise_sortYm _)) hx

/-- Witness: the classifier contract at the concrete example matrix
(blank TOTAL at 2024-02, zero TOTAL at 2024-05, numeric elsewhere). -/
theorem month_classifier_partition_witness :
    monthClassifierSpec exClassifierDf exClassifierTr :=
  month_classifier_partition exClassifierDf exClassifierTr rfl

/-- Sanity: on the example matrix the forecast list is exactly the
blank and zero TOTAL periods, in chronological order. -/
theorem exClassifier_forecast_months :
    (identify_months_to_forecast exClassifierDf).2.2.1 =
      [⟨2024, 2⟩, ⟨2024, 5⟩] := by decide

/-- C7: when every period's TOTAL cell is present and non-zero (as
after a fully successful forecast run), the classifier marks every
period actual, finds no forecast periods, and the forecast stage
performs no writes and reports success. -/
theorem forecast_idempotent_second_run (df : DataFrame) (tr : StateRow)
    (htr : findRow df "TOTAL" = some tr)
    (hall : ∀ m ∈ df.cols, ¬ toForecastTotal (tr.cells m)) :
    (identify_months_to_forecast df).2.1 = sortYm df.cols ∧
    (identify_months_to_forecast df).2.2.1 = [] ∧
    forecastMain df = (true, none) := by
  have he := identify_eq_of_total df tr htr
  have hfc : (identify_months_to_forecast df).2.2.1 = [] := by
    rw [he]
    refine List.filter_eq_nil_iff.mpr ?_
    intro m hm
    simp only [decide_eq_true_eq]
    exact hall m (mem_sortYm.mp hm)
  have hac : (identify_months_to_forecast df).2.1 = sortYm df.cols := by
    rw [he]
    refine List.filter_eq_self.mpr ?_
    intro m hm
    simp only [Bool.not_eq_true', decide_eq_false_iff_not]
    exact hall m (mem_sortYm.mp hm)
  refine ⟨hac, hfc, ?_⟩
  unfold forecastMain
  simp [hfc]

/-- Witness: the idempotence theorem at a concrete fully populated
matrix. -/
theorem forecast_idempotent_second_run_witness :
    (identify_months_to_forecast exIdemDf).2.1 = sortYm exIdemDf.cols ∧
    (identify_months_to_forecast exIdemDf).2.2.1 = [] ∧
    forecastMain exIdemDf = (true, none) :=
  forecast_idempotent_second_run exIdemDf exIdemTr rfl (by decide)

/-- C8 (amended): when at least one period needs forecasting and no
actual period exists, the forecast run reports failure without
computing anything. -/
theorem forecast_main_fails_without_baseline (df : DataFrame)
    (hac : (identify_months_to_forecast df).2.1 = [])
    (hfc : (identify_months_to_forecast df).2.2.1 ≠ []) :
    forecastMain df = (false, none) := by
  have hla : (identify_months_to_forecast df).2.2.2 = none := by
    rw [identify_latest_eq_getLast, hac]; rfl
  unfold forecastMain
  rw [if_neg hfc, hla]

/-- Witness: a matrix whose TOTAL row is zero everywhere makes the
run fail. -/
theorem forecast_main_fails_without_baseline_witness :
    forecastMain exNoActualDf = (false, none) :=
  forecast_main_fails_without_baseline exNoActualDf (by decide) (by decide)

/-- C8 counterexample: a matrix with a data row and a period column but
no TOTAL row has no actual periods at all, yet the forecast run reports
success (True) because no period is classified as needing forecasting —
it does not abort with an error as claimed. -/
theorem forecast_main_succeeds_without_total_row :
    (identify_months_to_forecast exNoTotalRowDf).2.1 = [] ∧
    (forecastMain exNoTotalRowDf).1 = true := by
  constructor
  · decide
  · decide

/-! ### Structural lemmas about rows, writes and coercion -/

theorem nth?_map {α β : Type} (f : α → β) :
    ∀ (l : List α) (i : ℕ), nth? (l.map f) i = (nth? l i).map f
  | [], _ => rfl
  | _ :: _, 0 => rfl
  | _ :: as, n + 1 => nth?_map f as n

theorem nth?_isSome_of_lt {α : Type} :
    ∀ (l : List α) (i : ℕ), i < l.length → ∃ a, nth? l i = some a
  | [], i, h => absurd h (by simp)
  | a :: _, 0, _ => ⟨a, rfl⟩
  | _ :: as, n + 1, h => nth?_isSome_of_lt as n (by simpa using h)

theorem length_modifyNth {α : Type} (f : α → α) :
    ∀ (i : ℕ) (l : List α), (modifyNth f i l).length = l.length
  | i, [] => by cases i <;> rfl
  | 0, _ :: _ => rfl
  | n + 1, _ :: as => by simp [modifyNth, length_modifyNth f n as]

theorem nth?_modifyNth_ne {α : Type} (f : α → α) :
    ∀ (i j : ℕ) (l : List α), j ≠ i →
      nth? (modifyNth f i l) j = nth? l j
  | i, j, [], _ => by cases i <;> cases j <;> rfl
  | 0, 0, _ :: _, h => absurd rfl h
  | 0, _ + 1, _ :: _, _ => rfl
  | _ + 1, 0, _ :: _, _ => rfl
  | n + 1, k + 1, _ :: as, h =>
      nth?_modifyNth_ne f n k as (by omega)

theorem nth?_modifyNth_eq {α : Type} (f : α → α) :
    ∀ (i : ℕ) (l : List α),
      nth? (modifyNth f i l) i = (nth? l i).map f
  | i, [] => by cases i <;> rfl
  | 0, _ :: _ => rfl
  | n + 1, _ :: as => nth?_modifyNth_eq f n as

theorem setCell_state (r : StateRow) (m : Ym) (c : Cell) :
    (setCell r m c).state = r.state := rfl

theorem setCell_cells_ne (r : StateRow) (m : Ym) (c : Cell) {m2 : Ym}
    (h : m2 ≠ m) : (setCell r m c).cells m2 = r.cells m2 := by
  simp [setCell, h]

theorem setCell_cells_eq (r : StateRow) (m : Ym) (c : Cell) :
    (setCell r m c).cells m = c := by
  simp [setCell]

theorem writeAt_rows_length (df : DataFrame) (i : ℕ) (m : Ym) (c : Cell) :
    (writeAt df i m c).rows.length = df.rows.length := by
  unfold writeAt
  by_cases h : m ∈ df.cols <;> simp [h, length_modifyNth]

theorem writeAt_state (df : DataFrame) (i : ℕ) (m : Ym) (c : Cell) (j : ℕ) :
    stateAt (writeAt df i m c) j = stateAt df j := by
  unfold writeAt stateAt
  by_cases h : m ∈ df.cols
  · simp only [if_pos h]
    by_cases hj : j = i
    · subst hj
      rw [nth?_modifyNth_eq]
      cases nth? df.rows j <;> simp [setCell_state]
    · rw [nth?_modifyNth_ne _ _ _ _ hj]
  · simp only [if_neg h]
    by_cases hj : j = i
    · subst hj
      rw [nth?_modifyNth_eq, nth?_map]
      cases nth? df.rows j <;> simp [setCell_state]
    · rw [nth?_modifyNth_ne _ _ _ _ hj, nth?_map]
      cases nth? df.rows j <;> simp [setCell_state]

theorem writeAt_cell_ne (df : DataFrame) (i : ℕ) (m : Ym) (c : Cell)
    (j : ℕ) {m2 : Ym} (hm : m2 ≠ m) :
    cellAt (writeAt df i m c) j m2 = cellAt df j m2 := by
  unfold writeAt cellAt
  by_cases h : m ∈ df.cols
  · simp only [if_pos h]
    by_cases hj : j = i
    · subst hj
      rw [nth?_modifyNth_eq]
      cases nth? df.rows j <;> simp [setCell_cells_ne _ _ _ hm]
    · rw [nth?_modifyNth_ne _ _ _ _ hj]
  · simp only [if_neg h]
    by_cases hj : j = i
    · subst hj
      rw [nth?_modifyNth_eq, nth?_map]
      cases nth? df.rows j <;> simp [setCell_cells_ne _ _ _ hm]
    · rw [nth?_modifyNth_ne _ _ _ _ hj, nth?_map]
      cases nth? df.rows j <;> simp [setCell_cells_ne _ _ _ hm]

theorem writeAt_cell_eq (df : DataFrame) (i : ℕ) (m : Ym) (c : Cell)
    (hi : i < df.rows.length) :
    cellAt (writeAt df i m c) i m = c := by
  obtain ⟨r, hr⟩ := nth?_isSome_of_lt df.rows i hi
  unfold writeAt cellAt
  by_cases h : m ∈ df.cols
  · simp only [if_pos h]
    rw [nth?_modifyNth_eq, hr]
    simp [setCell_cells_eq]
  · simp only [if_neg h]
    rw [nth?_modifyNth_eq, nth?_map, hr]
    simp [setCell_cells_eq]

theorem writeAt_cols_of_mem (df : DataFrame) (i : ℕ) (m : Ym) (c : Cell)
    (h : m ∈ df.cols) : (writeAt df i m c).cols = df.cols := by
  unfold writeAt
  simp [h]

theorem writeAt_cols_sub (df : DataFrame) (i : ℕ) (m : Ym) (c : Cell) :
    df.cols ⊆ (writeAt df i m c).cols := by
  unfold writeAt
  by_cases h : m ∈ df.cols <;> simp [h]

theorem writeAt_cell_other_row (df : DataFrame) (i : ℕ) (m : Ym) (c : Cell)
    (hcol : m ∈ df.cols) {j : ℕ} (hj : j ≠ i) (m2 : Ym) :
    cellAt (writeAt df i m c) j m2 = cellAt df j m2 := by
  unfold writeAt cellAt
  simp only [if_pos hcol]
  rw [nth?_modifyNth_ne _ _ _ _ hj]

theorem coerceCols_cols (am : List Ym) (df : DataFrame) :
    (coerceCols am df).cols = df.cols := rfl

theorem coerceCols_length (am : List Ym) (df : DataFrame) :
    (coerceCols am df).rows.length = df.rows.length := by
  simp [coerceCols]

theorem coerceCols_state (am : List Ym) (df : DataFrame) (j : ℕ) :
    stateAt (coerceCols am df) j = stateAt df j := by
  unfold stateAt coerceCols
  simp only [nth?_map]
  cases nth? df.rows j <;> rfl

theorem coerceCols_cell (am : List Ym) (df : DataFrame) (i : ℕ)
    (r : StateRow) (hr : nth? df.rows i = some r) (m : Ym) :
    cellAt (coerceCols am df) i m =
      if m ∈ am ∧ m ∈ df.cols then .num ((r.cells m).toQ) else r.cells m := by
  unfold cellAt coerceCols
  simp only [nth?_map, hr]
  rfl

theorem coerceCols_row (am : List Ym) (df : DataFrame) (i : ℕ)
    (r : StateRow) (hr : nth? df.rows i = some r) :
    nth? (coerceCols am df).rows i =
      some { r with cells := fun m =>
        if m ∈ am ∧ m ∈ df.cols then .num ((r.cells m).toQ) else r.cells m } := by
  unfold coerceCols
  simp only [nth?_map, hr]
  rfl

theorem ensureCol0_cols_of_mem (df : DataFrame) (m : Ym) (h : m ∈ df.cols) :
    ensureCol0 df m = df := by
  unfold ensureCol0
  simp [h]

theorem ensureCol0_mem_cols (df : DataFrame) (m : Ym) :
    m ∈ (ensureCol0 df m).cols := by
  unfold ensureCol0
  by_cases h : m ∈ df.cols <;> simp [h]

theorem ensureCol0_length (df : DataFrame) (m : Ym) :
    (ensureCol0 df m).rows.length = df.rows.length := by
  unfold ensureCol0
  by_cases h : m ∈ df.cols <;> simp [h]

theorem ensureCol0_state (df : DataFrame) (m : Ym) (j : ℕ) :
    stateAt (ensureCol0 df m) j = stateAt df j := by
  unfold ensureCol0 stateAt
  by_cases h : m ∈ df.cols
  · simp [h]
  · simp only [if_neg h, nth?_map]
    cases nth? df.rows j <;> simp [setCell_state]

theorem ensureCol0_cell_ne (df : DataFrame) (m : Ym) (j : ℕ) {m2 : Ym}
    (hm : m2 ≠ m) : cellAt (ensureCol0 df m) j m2 = cellAt df j m2 := by
  unfold ensureCol0 cellAt
  by_cases h : m ∈ df.cols
  · simp [h]
  · simp only [if_neg h, nth?_map]
    cases nth? df.rows j <;> simp [setCell_cells_ne _ _ _ hm]

theorem ensureCol0_row (df : DataFrame) (m : Ym) (i : ℕ) (r : StateRow)
    (hr : nth? df.rows i = some r) :
    nth? (ensureCol0 df m).rows i =
      some (if m ∈ df.cols then r else setCell r m (.num 0)) := by
  unfold ensureCol0
  by_cases h : m ∈ df.cols
  · simp [h, hr]
  · simp only [if_neg h, nth?_map, hr]
    simp [h]

/-- Preservation facts for one pass of the per-row forecast loop, when
the forecast column already exists: the columns, the row count, every
identifier, every cell of every other period, and the forecast cells of
rows whose index the pass does not visit are all unchanged. -/
theorem rowsLoop_pres (fm : Ym) (val : StateRow → ℚ) :
    ∀ (is : List ℕ) (df : DataFrame), fm ∈ df.cols →
      (rowsLoop fm val is df).cols = df.cols ∧
      (rowsLoop fm val is df).rows.length = df.rows.length ∧
      (∀ j, stateAt (rowsLoop fm val is df) j = stateAt df j) ∧
      (∀ j m2, m2 ≠ fm → cellAt (rowsLoop fm val is df) j m2 = cellAt df j m2) ∧
      (∀ j, j ∉ is → cellAt (rowsLoop fm val is df) j fm = cellAt df j fm) := by
  intro is
  induction is with
  | nil => intro df h; exact ⟨rfl, rfl, fun _ => rfl, fun _ _ _ => rfl, fun _ _ => rfl⟩
  | cons i is ih =>
      intro df h
      unfold rowsLoop
      cases hr : nth? df.rows i with
      | none =>
          obtain ⟨h1, h2, h3, h4, h5⟩ := ih df h
          exact ⟨h1, h2, h3, h4, fun j hj => h5 j (by simp at hj; exact hj.2)⟩
      | some r =>
          by_cases hord : isOrdinary r = true
          · simp only [hord, if_true]
            set d2 := writeAt df i fm (.num (val r)) with hd2
            have hcols2 : d2.cols = df.cols := writeAt_cols_of_mem df i fm _ h
            have hfm2 : fm ∈ d2.cols := by rw [hcols2]; exact h
            obtain ⟨h1, h2, h3, h4, h5⟩ := ih d2 hfm2
            refine ⟨h1.trans hcols2, h2.trans (writeAt_rows_length df i fm _), ?_, ?_, ?_⟩
            · intro j
              rw [h3 j, writeAt_state]
            · intro j m2 hm
              rw [h4 j m2 hm, writeAt_cell_ne df i fm _ j hm]
            · intro j hj
              have hji : j ≠ i := by simp at hj; exact fun hc => hj.1 hc
              have hjs : j ∉ is := by simp at hj; exact hj.2
              rw [h5 j hjs, writeAt_cell_other_row df i fm _ h hji]
          · simp only [hord, if_false]
            obtain ⟨h1, h2, h3, h4, h5⟩ := ih df h
            exact ⟨h1, h2, h3, h4, fun j hj => h5 j (by simp at hj; exact hj.2)⟩

theorem nth?_lt_of_some {α : Type} :
    ∀ (l : List α) (i : ℕ) (a : α), nth? l i = some a → i < l.length
  | [], i, a, h => by cases i <;> simp [nth?] at h
  | _ :: _, 0, _, _ => by simp
  | _ :: as, n + 1, a, h => by
      have := nth?_lt_of_some as n a h
      simpa using Nat.succ_lt_succ this

/-- The forecast value the per-row pass writes to an ordinary region
row it visits exactly once. -/
theorem rowsLoop_content (fm : Ym) (val : StateRow → ℚ) :
    ∀ (l1 : List ℕ) (i : ℕ) (l2 : List ℕ) (df : DataFrame) (r : StateRow),
      fm ∈ df.cols → i ∉ l1 → i ∉ l2 → nth? df.rows i = some r →
      isOrdinary r = true →
      cellAt (rowsLoop fm val (l1 ++ i :: l2) df) i fm = .num (val r) := by
  intro l1
  induction l1 with
  | nil =>
      intro i l2 df r hcol _ hil2 hr hord
      simp only [List.nil_append]
      unfold rowsLoop
      rw [hr]
      simp only [hord, if_true]
      set d2 := writeAt df i fm (.num (val r)) with hd2
      have hfm2 : fm ∈ d2.cols := by
        rw [writeAt_cols_of_mem df i fm _ hcol]; exact hcol
      obtain ⟨_, _, _, _, h5⟩ := rowsLoop_pres fm val l2 d2 hfm2
      rw [h5 i hil2]
      exact writeAt_cell_eq df i fm _ (nth?_lt_of_some df.rows i r hr)
  | cons j l1 ih =>
      intro i l2 df r hcol hil1 hil2 hr hord
      have hji : i ≠ j := by simp at hil1; exact hil1.1
      simp only [List.cons_append]
      unfold rowsLoop
      cases hrj : nth? df.rows j with
      | none => exact ih i l2 df r hcol (by simp at hil1; exact hil1.2) hil2 hr hord
      | some rj =>
          by_cases hordj : isOrdinary rj = true
          · simp only [hordj, if_true]
            set d2 := writeAt df j fm (.num (val rj)) with hd2
            have hcols2 : d2.cols = df.cols := writeAt_cols_of_mem df j fm _ hcol
            have hfm2 : fm ∈ d2.cols := by rw [hcols2]; exact hcol
            have hr2 : nth? d2.rows i = some r := by
              unfold d2
              unfold writeAt
              simp only [if_pos hcol]
              rw [nth?_modifyNth_ne _ _ _ _ hji]
              exact hr
            exact ih i l2 d2 r hfm2 (by simp at hil1; exact hil1.2) hil2 hr2 hord
          · simp only [hordj, if_false]
            exact ih i l2 df r hcol (by simp at hil1; exact hil1.2) hil2 hr hord

theorem nth?_none_of_ge {α : Type} :
    ∀ (l : List α) (i : ℕ), l.length ≤ i → nth? l i = none
  | [], i, _ => by cases i <;> rfl
  | _ :: as, i + 1, h => nth?_none_of_ge as i (by simpa using h)

theorem rowsLoop_not_ordinary (fm : Ym) (val : StateRow → ℚ) :
    ∀ (is : List ℕ) (df : DataFrame) (j : ℕ) (r : StateRow),
      fm ∈ df.cols → nth? df.rows j = some r → isOrdinary r = false →
      cellAt (rowsLoop fm val is df) j fm = cellAt df j fm := by
  intro is
  induction is with
  | nil => intro df j r _ _ _; rfl
  | cons i is ih =>
      intro df j r hcol hr hord
      unfold rowsLoop
      cases hri : nth? df.rows i with
      | none => exact ih df j r hcol hr hord
      | some ri =>
          by_cases hordi : isOrdinary ri = true
          · simp only [hordi, if_true]
            have hij : j ≠ i := by
              intro hc
              subst hc
              rw [hr] at hri
              injection hri with hri
              rw [hri] at hord
              rw [hord] at hordi
              exact Bool.noConfusion hordi
            set d2 := writeAt df i fm (.num (val ri)) with hd2
            have hcols2 : d2.cols = df.cols := writeAt_cols_of_mem df i fm _ hcol
            have hr2 : nth? d2.rows j = some r := by
              unfold d2 writeAt
              simp only [if_pos hcol]
              rw [nth?_modifyNth_ne _ _ _ _ hij]
              exact hr
            rw [ih d2 j r (hcols2 ▸ hcol) hr2 hord]
            exact writeAt_cell_other_row df i fm _ hcol hij fm
          · simp only [hordi, if_false]
            exact ih df j r hcol hr hord

/-! ### The per-month pass as a whole -/

theorem forEachOrdinary_cols (fm : Ym) (val : StateRow → ℚ) (df : DataFrame)
    (h : fm ∈ df.cols) : (forEachOrdinary fm val df).cols = df.cols :=
  (rowsLoop_pres fm val _ df h).1

theorem forEachOrdinary_length (fm : Ym) (val : StateRow → ℚ) (df : DataFrame)
    (h : fm ∈ df.cols) :
    (forEachOrdinary fm val df).rows.length = df.rows.length :=
  (rowsLoop_pres fm val _ df h).2.1

theorem forEachOrdinary_state (fm : Ym) (val : StateRow → ℚ) (df : DataFrame)
    (h : fm ∈ df.cols) (j : ℕ) :
    stateAt (forEachOrdinary fm val df) j = stateAt df j :=
  (rowsLoop_pres fm val _ df h).2.2.1 j

theorem forEachOrdinary_cell_ne (fm : Ym) (val : StateRow → ℚ) (df : DataFrame)
    (h : fm ∈ df.cols) (j : ℕ) {m2 : Ym} (hm : m2 ≠ fm) :
    cellAt (forEachOrdinary fm val df) j m2 = cellAt df j m2 :=
  (rowsLoop_pres fm val _ df h).2.2.2.1 j m2 hm

theorem forEachOrdinary_cell_ord (fm : Ym) (val : StateRow → ℚ) (df : DataFrame)
    (h : fm ∈ df.cols) (i : ℕ) (r : StateRow)
    (hr : nth? df.rows i = some r) (hord : isOrdinary r = true) :
    cellAt (forEachOrdinary fm val df) i fm = .num (val r) := by
  have hi : i < df.rows.length := nth?_lt_of_some df.rows i r hr
  have hmem : i ∈ List.range df.rows.length := List.mem_range.mpr hi
  obtain ⟨l1, l2, hsplit⟩ := List.append_of_mem hmem
  have hnd : (List.range df.rows.length).Nodup := List.nodup_range _
  rw [hsplit] at hnd
  rw [List.nodup_append] at hnd
  obtain ⟨_, hnd2, hdisj⟩ := hnd
  have hil2 : i ∉ l2 := (List.nodup_cons.mp hnd2).1
  have hil1 : i ∉ l1 := fun hc => hdisj hc (List.mem_cons_self i l2)
  unfold forEachOrdinary
  rw [hsplit]
  exact rowsLoop_content fm val l1 i l2 df r h hil1 hil2 hr hord

theorem forEachOrdinary_cell_notord (fm : Ym) (val : StateRow → ℚ)
    (df : DataFrame) (h : fm ∈ df.cols) (j : ℕ) (r : StateRow)
    (hr : nth? df.rows j = some r) (hord : isOrdinary r = false) :
    cellAt (forEachOrdinary fm val df) j fm = cellAt df j fm :=
  rowsLoop_not_ordinary fm val _ df j r h hr hord

theorem forEachOrdinary_cell_oob (fm : Ym) (val : StateRow → ℚ)
    (df : DataFrame) (h : fm ∈ df.cols) (j : ℕ)
    (hj : df.rows.length ≤ j) :
    cellAt (forEachOrdinary fm val df) j fm = cellAt df j fm :=
  (rowsLoop_pres fm val _ df h).2.2.2.2 j
    (fun hc => absurd (List.mem_range.mp hc) (by omega))

/-! ### The TOTAL row: index, lookup and recomputation -/

theorem findRow_total_eq_idx :
    ∀ rows : List StateRow,
      List.find? (fun r => r.state == "TOTAL") rows =
        (findTotalIdx rows).bind (nth? rows) := by
  intro rows
  induction rows with
  | nil => rfl
  | cons r rs ih =>
      unfold findTotalIdx
      by_cases h : r.state == "TOTAL"
      · simp [List.find?, h]
        rfl
      · rw [List.find?]
        simp only [h, Bool.false_eq_true, if_false]
        rw [ih]
        cases findTotalIdx rs <;> simp [nth?]

theorem findTotalIdx_some_row :
    ∀ (rows : List StateRow) (ti : ℕ), findTotalIdx rows = some ti →
      ∃ r, nth? rows ti = some r ∧ r.state = "TOTAL" := by
  intro rows
  induction rows with
  | nil => intro ti h; exact absurd h (by simp [findTotalIdx])
  | cons r rs ih =>
      intro ti h
      unfold findTotalIdx at h
      by_cases hs : r.state == "TOTAL"
      · simp only [hs, if_true] at h
        injection h with h
        exact ⟨r, h ▸ rfl, by simpa using hs⟩
      · simp only [hs, Bool.false_eq_true, if_false] at h
        cases hti : findTotalIdx rs with
        | none => rw [hti] at h; simp at h
        | some t =>
            rw [hti] at h
            simp only [Option.map_some'] at h
            obtain ⟨r2, hr2, hst⟩ := ih t hti
            injection h with h
            exact ⟨r2, by rw [h.symm]; exact hr2, hst⟩

theorem findTotalIdx_congr :
    ∀ (rows1 rows2 : List StateRow), rows1.length = rows2.length →
      (∀ j r1 r2, nth? rows1 j = some r1 → nth? rows2 j = some r2 →
        r1.state = r2.state) →
      findTotalIdx rows1 = findTotalIdx rows2 := by
  intro rows1
  induction rows1 with
  | nil =>
      intro rows2 hlen _
      cases rows2 with
      | nil => rfl
      | cons _ _ => simp at hlen
  | cons r rs ih =>
      intro rows2 hlen hst
      cases rows2 with
      | nil => simp at hlen
      | cons r2 rs2 =>
          have hhead : r.state = r2.state := hst 0 r r2 rfl rfl
          unfold findTotalIdx
          rw [hhead]
          by_cases h : r2.state == "TOTAL"
          · simp [h]
          · simp only [h, Bool.false_eq_true, if_false]
            rw [ih rs2 (by simpa using hlen)
              (fun j a b ha hb => hst (j + 1) a b ha hb)]

theorem recomputeTotal_of_none (fm : Ym) (df : DataFrame)
    (h : findTotalIdx df.rows = none) : recomputeTotal fm df = df := by
  unfold recomputeTotal
  rw [h]

theorem recomputeTotal_length (fm : Ym) (df : DataFrame) :
    (recomputeTotal fm df).rows.length = df.rows.length := by
  unfold recomputeTotal
  cases findTotalIdx df.rows with
  | none => rfl
  | some t => exact writeAt_rows_length df t fm _

theorem recomputeTotal_state (fm : Ym) (df : DataFrame) (j : ℕ) :
    stateAt (recomputeTotal fm df) j = stateAt df j := by
  unfold recomputeTotal
  cases findTotalIdx df.rows with
  | none => rfl
  | some t => exact writeAt_state df t fm _ j

theorem recomputeTotal_cell_ne (fm : Ym) (df : DataFrame) (j : ℕ) {m2 : Ym}
    (hm : m2 ≠ fm) : cellAt (recomputeTotal fm df) j m2 = cellAt df j m2 := by
  unfold recomputeTotal
  cases findTotalIdx df.rows with
  | none => rfl
  | some t => exact writeAt_cell_ne df t fm _ j hm

theorem recomputeTotal_cols_of_mem (fm : Ym) (df : DataFrame)
    (h : fm ∈ df.cols) : (recomputeTotal fm df).cols = df.cols := by
  unfold recomputeTotal
  cases findTotalIdx df.rows with
  | none => rfl
  | some t => exact writeAt_cols_of_mem df t fm _ h

theorem recomputeTotal_cols_sub (fm : Ym) (df : DataFrame) :
    df.cols ⊆ (recomputeTotal fm df).cols := by
  unfold recomputeTotal
  cases findTotalIdx df.rows with
  | none => exact fun a ha => ha
  | some t => exact writeAt_cols_sub df t fm _

theorem recomputeTotal_cell_other (fm : Ym) (df : DataFrame) (t : ℕ)
    (ht : findTotalIdx df.rows = some t) (hcol : fm ∈ df.cols) {j : ℕ}
    (hj : j ≠ t) : cellAt (recomputeTotal fm df) j fm = cellAt df j fm := by
  unfold recomputeTotal
  rw [ht]
  exact writeAt_cell_other_row df t fm _ hcol hj fm

theorem recomputeTotal_total_cell (fm : Ym) (df : DataFrame) (t : ℕ)
    (ht : findTotalIdx df.rows = some t) :
    cellAt (recomputeTotal fm df) t fm =
      .num (((df.rows.filter (fun r => isOrdinary r)).map
        (fun r => (r.cells fm).toQ)).sum) := by
  unfold recomputeTotal
  rw [ht]
  obtain ⟨r, hr, _⟩ := findTotalIdx_some_row df.rows t ht
  exact writeAt_cell_eq df t fm _ (nth?_lt_of_some df.rows t r hr)

/-! ### Unconditional preservation through the row pass -/

theorem rowsLoop_length_any (fm : Ym) (val : StateRow → ℚ) :
    ∀ (is : List ℕ) (df : DataFrame),
      (rowsLoop fm val is df).rows.length = df.rows.length := by
  intro is
  induction is with
  | nil => intro df; rfl
  | cons i is ih =>
      intro df
      unfold rowsLoop
      cases nth? df.rows i with
      | none => exact ih df
      | some r =>
          by_cases hord : isOrdinary r = true
          · simp only [hord, if_true]
            rw [ih _, writeAt_rows_length]
          · simp only [hord, if_false]
            exact ih df

theorem rowsLoop_state_any (fm : Ym) (val : StateRow → ℚ) :
    ∀ (is : List ℕ) (df : DataFrame) (j : ℕ),
      stateAt (rowsLoop fm val is df) j = stateAt df j := by
  intro is
  induction is with
  | nil => intro df j; rfl
  | cons i is ih =>
      intro df j
      unfold rowsLoop
      cases nth? df.rows i with
      | none => exact ih df j
      | some r =>
          by_cases hord : isOrdinary r = true
          · simp only [hord, if_true]
            rw [ih _ j, writeAt_state]
          · simp only [hord, if_false]
            exact ih df j

theorem rowsLoop_cell_ne_any (fm : Ym) (val : StateRow → ℚ) :
    ∀ (is : List ℕ) (df : DataFrame) (j : ℕ) {m2 : Ym}, m2 ≠ fm →
      cellAt (rowsLoop fm val is df) j m2 = cellAt df j m2 := by
  intro is
  induction is with
  | nil => intro df j m2 _; rfl
  | cons i is ih =>
      intro df j m2 hm
      unfold rowsLoop
      cases nth? df.rows i with
      | none => exact ih df j hm
      | some r =>
          by_cases hord : isOrdinary r = true
          · simp only [hord, if_true]
            rw [ih _ j hm, writeAt_cell_ne _ _ _ _ _ hm]
          · simp only [hord, if_false]
            exact ih df j hm

theorem rowsLoop_cols_sub (fm : Ym) (val : StateRow → ℚ) :
    ∀ (is : List ℕ) (df : DataFrame),
      df.cols ⊆ (rowsLoop fm val is df).cols := by
  intro is
  induction is with
  | nil => intro df; exact fun a ha => ha
  | cons i is ih =>
      intro df
      unfold rowsLoop
      cases nth? df.rows i with
      | none => exact ih df
      | some r =>
          by_cases hord : isOrdinary r = true
          · simp only [hord, if_true]
            exact fun a ha => ih _ (writeAt_cols_sub df i fm _ ha)
          · simp only [hord, if_false]
            exact ih df

/-! ### Month arithmetic of the reference periods -/

theorem prevYm_ne (x : Ym) : prevYm x ≠ x := by
  intro hc
  have h1 : (prevYm x).y = x.y := congrArg Ym.y hc
  have h2 : (prevYm x).m = x.m := congrArg Ym.m hc
  unfold prevYm get_previous_month at h1 h2
  by_cases h : x.m = 1
  · rw [if_pos h] at h1
    have h3 : x.y - 1 = x.y := h1
    omega
  · rw [if_neg h] at h2
    have h3 : x.m - 1 = x.m := h2
    omega

theorem pymYm_ne (fm : Ym) : (⟨fm.y - 1, fm.m⟩ : Ym) ≠ fm := by
  intro hc
  have h1 : (⟨fm.y - 1, fm.m⟩ : Ym).y = fm.y := congrArg Ym.y hc
  have h2 : fm.y - 1 = fm.y := h1
  omega

theorem plyYm_ne (fm : Ym) : prevYm ⟨fm.y - 1, fm.m⟩ ≠ fm := by
  intro hc
  have h1 : (prevYm ⟨fm.y - 1, fm.m⟩).y = fm.y := congrArg Ym.y hc
  unfold prevYm get_previous_month at h1
  by_cases h : fm.m = 1
  · rw [if_pos (show (⟨fm.y - 1, fm.m⟩ : Ym).m = 1 from h)] at h1
    have h2 : fm.y - 1 - 1 = fm.y := h1
    omega
  · rw [if_neg (show ¬(⟨fm.y - 1, fm.m⟩ : Ym).m = 1 from h)] at h1
    have h2 : fm.y - 1 = fm.y := h1
    omega

/-! ### The two branches of one forecast-month iteration -/

theorem forecastStep_special_eq (am : List Ym) (la : Ym)
    (mr : Option StateRow) (df : DataFrame)
    (hrefs : (⟨2024, 8⟩ : Ym) ∈ am) :
    forecastStep am la mr specialMonth df =
      recomputeTotal specialMonth
        (forEachOrdinary specialMonth
          (fun r => specialRowValue (specialAdjustment mr la ⟨2024, 8⟩) r ⟨2024, 8⟩)
          df) := by
  simp only [forecastStep, if_true]
  rw [if_pos hrefs]

theorem forecastStep_special_skip (am : List Ym) (la : Ym)
    (mr : Option StateRow) (df : DataFrame)
    (hrefs : (⟨2024, 8⟩ : Ym) ∉ am) :
    forecastStep am la mr specialMonth df = df := by
  simp only [forecastStep, if_true]
  rw [if_neg hrefs]

theorem forecastStep_std_eq (am : List Ym) (la : Ym)
    (mr : Option StateRow) (fm : Ym) (df : DataFrame)
    (hfm : fm ≠ specialMonth)
    (hrefs : prevYm fm ∈ am ∧ (⟨fm.y - 1, fm.m⟩ : Ym) ∈ am ∧
      prevYm ⟨fm.y - 1, fm.m⟩ ∈ am) :
    forecastStep am la mr fm df =
      recomputeTotal fm
        (forEachOrdinary fm
          (fun r => stdRowValue
            (stdMembershipRatio mr (prevYm fm) ⟨fm.y - 1, fm.m⟩)
            r (prevYm fm) ⟨fm.y - 1, fm.m⟩ (prevYm ⟨fm.y - 1, fm.m⟩))
          (ensureCol0 df fm)) := by
  simp only [forecastStep]
  rw [if_neg hfm, if_pos hrefs]

theorem forecastStep_std_skip (am : List Ym) (la : Ym)
    (mr : Option StateRow) (fm : Ym) (df : DataFrame)
    (hfm : fm ≠ specialMonth)
    (hrefs : ¬(prevYm fm ∈ am ∧ (⟨fm.y - 1, fm.m⟩ : Ym) ∈ am ∧
      prevYm ⟨fm.y - 1, fm.m⟩ ∈ am)) :
    forecastStep am la mr fm df = df := by
  simp only [forecastStep]
  rw [if_neg hfm, if_neg hrefs]

theorem forecastStep_length (am : List Ym) (la : Ym) (mr : Option StateRow)
    (fm : Ym) (df : DataFrame) :
    (forecastStep am la mr fm df).rows.length = df.rows.length := by
  by_cases hfm : fm = specialMonth
  · subst hfm
    by_cases hrefs : (⟨2024, 8⟩ : Ym) ∈ am
    · rw [forecastStep_special_eq am la mr df hrefs, recomputeTotal_length]
      exact rowsLoop_length_any _ _ _ _
    · rw [forecastStep_special_skip am la mr df hrefs]
  · by_cases hrefs : prevYm fm ∈ am ∧ (⟨fm.y - 1, fm.m⟩ : Ym) ∈ am ∧
        prevYm ⟨fm.y - 1, fm.m⟩ ∈ am
    · rw [forecastStep_std_eq am la mr fm df hfm hrefs, recomputeTotal_length]
      rw [show (forEachOrdinary fm _ (ensureCol0 df fm)).rows.length =
          (ensureCol0 df fm).rows.length from rowsLoop_length_any _ _ _ _]
      exact ensureCol0_length df fm
    · rw [forecastStep_std_skip am la mr fm df hfm hrefs]

theorem forecastStep_state (am : List Ym) (la : Ym) (mr : Option StateRow)
    (fm : Ym) (df : DataFrame) (j : ℕ) :
    stateAt (forecastStep am la mr fm df) j = stateAt df j := by
  by_cases hfm : fm = specialMonth
  · subst hfm
    by_cases hrefs : (⟨2024, 8⟩ : Ym) ∈ am
    · rw [forecastStep_special_eq am la mr df hrefs, recomputeTotal_state]
      exact rowsLoop_state_any _ _ _ _ j
    · rw [forecastStep_special_skip am la mr df hrefs]
  · by_cases hrefs : prevYm fm ∈ am ∧ (⟨fm.y - 1, fm.m⟩ : Ym) ∈ am ∧
        prevYm ⟨fm.y - 1, fm.m⟩ ∈ am
    · rw [forecastStep_std_eq am la mr fm df hfm hrefs, recomputeTotal_state]
      rw [show stateAt (forEachOrdinary fm _ (ensureCol0 df fm)) j =
          stateAt (ensureCol0 df fm) j from rowsLoop_state_any _ _ _ _ j]
      exact ensureCol0_state df fm j
    · rw [forecastStep_std_skip am la mr fm df hfm hrefs]

theorem forecastStep_cell_ne (am : List Ym) (la : Ym) (mr : Option StateRow)
    (fm : Ym) (df : DataFrame) (j : ℕ) {m2 : Ym} (hm : m2 ≠ fm) :
    cellAt (forecastStep am la mr fm df) j m2 = cellAt df j m2 := by
  by_cases hfm : fm = specialMonth
  · subst hfm
    by_cases hrefs : (⟨2024, 8⟩ : Ym) ∈ am
    · rw [forecastStep_special_eq am la mr df hrefs,
        recomputeTotal_cell_ne _ _ _ hm]
      exact rowsLoop_cell_ne_any _ _ _ _ j hm
    · rw [forecastStep_special_skip am la mr df hrefs]
  · by_cases hrefs : prevYm fm ∈ am ∧ (⟨fm.y - 1, fm.m⟩ : Ym) ∈ am ∧
        prevYm ⟨fm.y - 1, fm.m⟩ ∈ am
    · rw [forecastStep_std_eq am la mr fm df hfm hrefs,
        recomputeTotal_cell_ne _ _ _ hm]
      rw [show cellAt (forEachOrdinary fm _ (ensureCol0 df fm)) j m2 =
          cellAt (ensureCol0 df fm) j m2 from rowsLoop_cell_ne_any _ _ _ _ j hm]
      exact ensureCol0_cell_ne df fm j hm
    · rw [forecastStep_std_skip am la mr fm df hfm hrefs]

theorem ensureCol0_cols_sub (df : DataFrame) (m : Ym) :
    df.cols ⊆ (ensureCol0 df m).cols := by
  unfold ensureCol0
  by_cases h : m ∈ df.cols <;> simp [h]

theorem forecastStep_cols_sub (am : List Ym) (la : Ym) (mr : Option StateRow)
    (fm : Ym) (df : DataFrame) :
    df.cols ⊆ (forecastStep am la mr fm df).cols := by
  by_cases hfm : fm = specialMonth
  · subst hfm
    by_cases hrefs : (⟨2024, 8⟩ : Ym) ∈ am
    · rw [forecastStep_special_eq am la mr df hrefs]
      intro a ha
      exact recomputeTotal_cols_sub _ _ (rowsLoop_cols_sub _ _ _ _ ha)
    · rw [forecastStep_special_skip am la mr df hrefs]
      exact fun a ha => ha
  · by_cases hrefs : prevYm fm ∈ am ∧ (⟨fm.y - 1, fm.m⟩ : Ym) ∈ am ∧
        prevYm ⟨fm.y - 1, fm.m⟩ ∈ am
    · rw [forecastStep_std_eq am la mr fm df hfm hrefs]
      intro a ha
      exact recomputeTotal_cols_sub _ _
        (rowsLoop_cols_sub _ _ _ _ (ensureCol0_cols_sub df fm ha))
    · rw [forecastStep_std_skip am la mr fm df hfm hrefs]
      exact fun a ha => ha

theorem forecastStep_cols_of_mem (am : List Ym) (la : Ym)
    (mr : Option StateRow) (fm : Ym) (df : DataFrame) (h : fm ∈ df.cols) :
    (forecastStep am la mr fm df).cols = df.cols := by
  by_cases hfm : fm = specialMonth
  · subst hfm
    by_cases hrefs : (⟨2024, 8⟩ : Ym) ∈ am
    · rw [forecastStep_special_eq am la mr df hrefs]
      have h1 := (rowsLoop_pres specialMonth
        (fun r => specialRowValue (specialAdjustment mr la ⟨2024, 8⟩) r ⟨2024, 8⟩)
        (List.range df.rows.length) df h).1
      rw [recomputeTotal_cols_of_mem _ _ (by rw [show (forEachOrdinary specialMonth _ df).cols = df.cols from h1]; exact h)]
      exact h1
    · rw [forecastStep_special_skip am la mr df hrefs]
  · by_cases hrefs : prevYm fm ∈ am ∧ (⟨fm.y - 1, fm.m⟩ : Ym) ∈ am ∧
        prevYm ⟨fm.y - 1, fm.m⟩ ∈ am
    · rw [forecastStep_std_eq am la mr fm df hfm hrefs]
      rw [ensureCol0_cols_of_mem df fm h]
      have h1 := (rowsLoop_pres fm
        (fun r => stdRowValue (stdMembershipRatio mr (prevYm fm) ⟨fm.y - 1, fm.m⟩)
          r (prevYm fm) ⟨fm.y - 1, fm.m⟩ (prevYm ⟨fm.y - 1, fm.m⟩))
        (List.range df.rows.length) df h).1
      rw [recomputeTotal_cols_of_mem _ _ (by rw [show (forEachOrdinary fm _ df).cols = df.cols from h1]; exact h)]
      exact h1
    · rw [forecastStep_std_skip am la mr fm df hfm hrefs]

/-! ### The membership ratio as the specification words it -/

theorem stdMembershipRatio_eq_claim (mr : Option StateRow) (prev smly : Ym) :
    stdMembershipRatio mr prev smly = claimMembershipRatio mr prev smly := by
  cases mr with
  | none => rfl
  | some r =>
      unfold stdMembershipRatio claimMembershipRatio memDenomOk
      cases h : r.cells smly with
      | num q =>
          by_cases hq : q = 0 <;> simp [h, hq, Cell.toQ, Cell.isNA]
      | na => simp [h, Cell.toQ, Cell.isNA]
      | blank => simp [h, Cell.toQ, Cell.isNA]
      | txt s => simp [h, Cell.toQ, Cell.isNA]

theorem specialAdjustment_eq_claim (mr : Option StateRow) (la pySM : Ym) :
    specialAdjustment mr la pySM = claimAdjustment mr la pySM := by
  cases mr with
  | none => rfl
  | some r =>
      unfold specialAdjustment claimAdjustment memDenomOk
      cases h : r.cells pySM with
      | num q =>
          by_cases hq : q = 0
          · simp [h, hq, Cell.toQ, Cell.isNA]
          · simp only [h, Cell.toQ, Cell.isNA, and_true, ne_eq, hq,
              not_false_iff, if_true, if_false, if_neg hq]
            rw [mul_comm q _, div_mul_cancel₀ _ hq]
      | na => simp [h, Cell.toQ, Cell.isNA]
      | blank => simp [h, Cell.toQ, Cell.isNA]
      | txt s => simp [h, Cell.toQ, Cell.isNA]

/-! ### Facts about Python rounding -/

theorem ratFloor_eq (x : ℚ) : Rat.floor x = ⌊x⌋ := rfl

theorem pyRound_zero : pyRound 0 = 0 := by
  unfold pyRound
  rw [ratFloor_eq]
  norm_num

theorem pyRound_nonneg {x : ℚ} (h : 0 ≤ x) : 0 ≤ pyRound x := by
  simp only [pyRound]
  rw [ratFloor_eq]
  have hf : 0 ≤ ⌊x⌋ := Int.floor_nonneg.mpr h
  split_ifs <;> omega

theorem pyRound_nonpos {x : ℚ} (h : x ≤ 0) : pyRound x ≤ 0 := by
  simp only [pyRound]
  rw [ratFloor_eq]
  have hf : ⌊x⌋ ≤ 0 := Int.floor_nonpos h
  split_ifs with h1 h2 h3
  · exact hf
  · have hx : (⌊x⌋ : ℚ) + 1 / 2 < x := by linarith
    have : (⌊x⌋ : ℚ) < -(1 / 2) := by linarith
    have : (⌊x⌋ : ℚ) < 0 := by linarith
    have : ⌊x⌋ < 0 := by exact_mod_cast this
    omega
  · exact hf
  · have hx : x - (⌊x⌋ : ℚ) = 1 / 2 := by
      have ha : ¬x - (⌊x⌋ : ℚ) < 1 / 2 := h1
      have hb : ¬1 / 2 < x - (⌊x⌋ : ℚ) := h2
      linarith [not_lt.mp ha, not_lt.mp hb]
    have : (⌊x⌋ : ℚ) = x - 1 / 2 := by linarith
    have : (⌊x⌋ : ℚ) < 0 := by linarith
    have : ⌊x⌋ < 0 := by exact_mod_cast this
    omega

theorem pyMaxZ_pyRound (x : ℚ) : pyMaxZ 0 (pyRound x) = pyRound (pyMax 0 x) := by
  unfold pyMaxZ pyMax
  by_cases h : (0 : ℚ) < x
  · rw [if_pos h]
    have h0 : 0 ≤ pyRound x := pyRound_nonneg (le_of_lt h)
    by_cases h1 : (0 : ℤ) < pyRound x
    · rw [if_pos h1]
    · rw [if_neg h1]
      omega
  · rw [if_neg h]
    have h0 : pyRound x ≤ 0 := pyRound_nonpos (not_lt.mp h)
    rw [if_neg (by omega : ¬(0 : ℤ) < pyRound x)]
    exact pyRound_zero.symm

theorem pyRound_intCast (n : ℤ) : pyRound ((n : ℤ) : ℚ) = n := by
  unfold pyRound
  rw [ratFloor_eq, Int.floor_intCast]
  norm_num

/-! ### Folding the forecast months -/

theorem foldSteps_length (am : List Ym) (la : Ym) (mr : Option StateRow) :
    ∀ (l : List Ym) (df : DataFrame),
      (l.foldl (fun d fm => forecastStep am la mr fm d) df).rows.length =
        df.rows.length := by
  intro l
  induction l with
  | nil => intro df; rfl
  | cons fm l ih =>
      intro df
      rw [List.foldl_cons, ih, forecastStep_length]

theorem foldSteps_state (am : List Ym) (la : Ym) (mr : Option StateRow) :
    ∀ (l : List Ym) (df : DataFrame) (j : ℕ),
      stateAt (l.foldl (fun d fm => forecastStep am la mr fm d) df) j =
        stateAt df j := by
  intro l
  induction l with
  | nil => intro df j; rfl
  | cons fm l ih =>
      intro df j
      rw [List.foldl_cons, ih, forecastStep_state]

theorem foldSteps_cols_sub (am : List Ym) (la : Ym) (mr : Option StateRow) :
    ∀ (l : List Ym) (df : DataFrame),
      df.cols ⊆ (l.foldl (fun d fm => forecastStep am la mr fm d) df).cols := by
  intro l
  induction l with
  | nil => intro df; exact fun a ha => ha
  | cons fm l ih =>
      intro df
      rw [List.foldl_cons]
      exact fun a ha => ih _ (forecastStep_cols_sub am la mr fm df ha)

theorem foldSteps_cell_ne (am : List Ym) (la : Ym) (mr : Option StateRow) :
    ∀ (l : List Ym) (df : DataFrame) (j : ℕ) (m : Ym),
      (∀ fm2 ∈ l, m ≠ fm2) →
      cellAt (l.foldl (fun d fm => forecastStep am la mr fm d) df) j m =
        cellAt df j m := by
  intro l
  induction l with
  | nil => intro df j m _; rfl
  | cons fm l ih =>
      intro df j m hm
      rw [List.foldl_cons, ih _ j m (fun f2 h2 => hm f2 (List.mem_cons_of_mem fm h2)),
        forecastStep_cell_ne am la mr fm df j (hm fm (List.mem_cons_self fm l))]

theorem foldSteps_cols_of_mem (am : List Ym) (la : Ym) (mr : Option StateRow) :
    ∀ (l : List Ym) (df : DataFrame), (∀ fm2 ∈ l, fm2 ∈ df.cols) →
      (l.foldl (fun d fm => forecastStep am la mr fm d) df).cols = df.cols := by
  intro l
  induction l with
  | nil => intro df _; rfl
  | cons fm l ih =>
      intro df hmem
      rw [List.foldl_cons]
      have h1 : (forecastStep am la mr fm df).cols = df.cols :=
        forecastStep_cols_of_mem am la mr fm df (hmem fm (List.mem_cons_self fm l))
      rw [ih _ (fun f2 h2 => h1 ▸ hmem f2 (List.mem_cons_of_mem fm h2)), h1]

/-! ### Projections of the finished forecast run -/

theorem calculate_forecasts_rows (df : DataFrame) (am fms : List Ym) (la : Ym) :
    (calculate_forecasts df am fms la).rows =
      (runPrefix df am la (sortYm fms)).rows := rfl

theorem calculate_forecasts_cellAt (df : DataFrame) (am fms : List Ym)
    (la : Ym) (i : ℕ) (m : Ym) :
    cellAt (calculate_forecasts df am fms la) i m =
      cellAt (runPrefix df am la (sortYm fms)) i m := by
  unfold cellAt
  rw [calculate_forecasts_rows]

theorem calculate_forecasts_stateAt (df : DataFrame) (am fms : List Ym)
    (la : Ym) (j : ℕ) :
    stateAt (calculate_forecasts df am fms la) j =
      stateAt (runPrefix df am la (sortYm fms)) j := by
  unfold stateAt
  rw [calculate_forecasts_rows]

theorem runPrefix_append (df : DataFrame) (am : List Ym) (la : Ym)
    (l1 l2 : List Ym) :
    runPrefix df am la (l1 ++ l2) =
      l2.foldl
        (fun d fm => forecastStep am la (findRow (coerceCols am df) "MEMBERSHIP") fm d)
        (runPrefix df am la l1) := by
  unfold runPrefix
  rw [List.foldl_append]

theorem runPrefix_length (df : DataFrame) (am : List Ym) (la : Ym)
    (l : List Ym) :
    (runPrefix df am la l).rows.length = df.rows.length := by
  unfold runPrefix
  rw [foldSteps_length, coerceCols_length]

theorem runPrefix_state (df : DataFrame) (am : List Ym) (la : Ym)
    (l : List Ym) (j : ℕ) :
    stateAt (runPrefix df am la l) j = stateAt df j := by
  unfold runPrefix
  rw [foldSteps_state, coerceCols_state]

theorem runPrefix_cols_sub (df : DataFrame) (am : List Ym) (la : Ym)
    (l : List Ym) : df.cols ⊆ (runPrefix df am la l).cols := by
  unfold runPrefix
  intro a ha
  exact foldSteps_cols_sub _ _ _ l (coerceCols am df) ((coerceCols_cols am df).symm ▸ ha)

/-! ### What one iteration writes to an ordinary region row -/

theorem isOrdinary_setCell (r : StateRow) (m : Ym) (c : Cell) :
    isOrdinary (setCell r m c) = isOrdinary r := rfl

theorem isOrdinary_iff (r : StateRow) :
    isOrdinary r = true ↔ r.state ≠ "TOTAL" ∧ r.state ≠ "MEMBERSHIP" := by
  simp [isOrdinary]

theorem stdRowValue_setCell (ratio : ℚ) (r : StateRow) (fm : Ym) (c : Cell)
    {prev pym ply : Ym} (h1 : prev ≠ fm) (h2 : pym ≠ fm) (h3 : ply ≠ fm) :
    stdRowValue ratio (setCell r fm c) prev pym ply =
      stdRowValue ratio r prev pym ply := by
  unfold stdRowValue
  rw [setCell_cells_ne _ _ _ h1, setCell_cells_ne _ _ _ h2,
    setCell_cells_ne _ _ _ h3]

theorem forecastStep_cell_std (am : List Ym) (la : Ym) (mr : Option StateRow)
    (fm : Ym) (df : DataFrame) (i : ℕ) (r : StateRow)
    (hfm : fm ≠ specialMonth)
    (hrefs : prevYm fm ∈ am ∧ (⟨fm.y - 1, fm.m⟩ : Ym) ∈ am ∧
      prevYm ⟨fm.y - 1, fm.m⟩ ∈ am)
    (hr : nth? df.rows i = some r) (hord : isOrdinary r = true) :
    cellAt (forecastStep am la mr fm df) i fm =
      .num (stdPolicyValue mr r fm) := by
  rw [forecastStep_std_eq am la mr fm df hfm hrefs]
  have hfm1 : fm ∈ (ensureCol0 df fm).cols := ensureCol0_mem_cols df fm
  have hr1 : nth? (ensureCol0 df fm).rows i =
      some (if fm ∈ df.cols then r else setCell r fm (.num 0)) :=
    ensureCol0_row df fm i r hr
  have hord1 : isOrdinary (if fm ∈ df.cols then r else setCell r fm (.num 0)) = true := by
    by_cases hc : fm ∈ df.cols
    · rw [if_pos hc]; exact hord
    · rw [if_neg hc, isOrdinary_setCell]; exact hord
  have hval : stdRowValue (stdMembershipRatio mr (prevYm fm) ⟨fm.y - 1, fm.m⟩)
      (if fm ∈ df.cols then r else setCell r fm (.num 0))
      (prevYm fm) ⟨fm.y - 1, fm.m⟩ (prevYm ⟨fm.y - 1, fm.m⟩) =
      stdPolicyValue mr r fm := by
    by_cases hc : fm ∈ df.cols
    · rw [if_pos hc]; rfl
    · rw [if_neg hc,
        stdRowValue_setCell _ _ _ _ (prevYm_ne fm) (pymYm_ne fm) (plyYm_ne fm)]
      rfl
  set val := fun r2 => stdRowValue (stdMembershipRatio mr (prevYm fm) ⟨fm.y - 1, fm.m⟩)
      r2 (prevYm fm) ⟨fm.y - 1, fm.m⟩ (prevYm ⟨fm.y - 1, fm.m⟩) with hvaldef
  have hcell2 : cellAt (forEachOrdinary fm val (ensureCol0 df fm)) i fm =
      .num (val (if fm ∈ df.cols then r else setCell r fm (.num 0))) :=
    forEachOrdinary_cell_ord fm val (ensureCol0 df fm) hfm1 i _ hr1 hord1
  have hcols2 : (forEachOrdinary fm val (ensureCol0 df fm)).cols =
      (ensureCol0 df fm).cols := forEachOrdinary_cols fm val _ hfm1
  cases ht : findTotalIdx (forEachOrdinary fm val (ensureCol0 df fm)).rows with
  | none =>
      rw [recomputeTotal_of_none fm _ ht, hcell2]
      exact congrArg Cell.num hval
  | some t =>
      have hne : i ≠ t := by
        obtain ⟨rt, hrt, hst⟩ :=
          findTotalIdx_some_row (forEachOrdinary fm val (ensureCol0 df fm)).rows t ht
        intro hc
        subst hc
        have hsame : stateAt (forEachOrdinary fm val (ensureCol0 df fm)) i = rt.state := by
          unfold stateAt
          rw [hrt]
        rw [forEachOrdinary_state fm val _ hfm1 i] at hsame
        have hsame2 : stateAt (ensureCol0 df fm) i = r.state := by
          unfold stateAt
          rw [hr1]
          by_cases hc2 : fm ∈ df.cols
          · rw [if_pos hc2]
          · rw [if_neg hc2]
            exact setCell_state r fm _
        rw [hsame2, hst] at hsame
        exact ((isOrdinary_iff r).mp hord).1 hsame
      rw [recomputeTotal_cell_other fm _ t ht (hcols2 ▸ hfm1) hne, hcell2]
      exact congrArg Cell.num hval

theorem forecastStep_cell_special (am : List Ym) (la : Ym)
    (mr : Option StateRow) (df : DataFrame) (i : ℕ) (r : StateRow)
    (hrefs : (⟨2024, 8⟩ : Ym) ∈ am)
    (hcol : specialMonth ∈ df.cols)
    (hr : nth? df.rows i = some r) (hord : isOrdinary r = true) :
    cellAt (forecastStep am la mr specialMonth df) i specialMonth =
      .num (specialPolicyValue mr la r) := by
  rw [forecastStep_special_eq am la mr df hrefs]
  set val := fun r2 => specialRowValue (specialAdjustment mr la ⟨2024, 8⟩) r2 ⟨2024, 8⟩
    with hvaldef
  have hcell2 : cellAt (forEachOrdinary specialMonth val df) i specialMonth =
      .num (val r) :=
    forEachOrdinary_cell_ord specialMonth val df hcol i r hr hord
  have hcols2 : (forEachOrdinary specialMonth val df).cols = df.cols :=
    forEachOrdinary_cols specialMonth val df hcol
  cases ht : findTotalIdx (forEachOrdinary specialMonth val df).rows with
  | none =>
      rw [recomputeTotal_of_none _ _ ht, hcell2]
      rfl
  | some t =>
      have hne : i ≠ t := by
        obtain ⟨rt, hrt, hst⟩ :=
          findTotalIdx_some_row (forEachOrdinary specialMonth val df).rows t ht
        intro hc
        subst hc
        have hsame : stateAt (forEachOrdinary specialMonth val df) i = rt.state := by
          unfold stateAt
          rw [hrt]
        rw [forEachOrdinary_state specialMonth val df hcol i] at hsame
        have hsame2 : stateAt df i = r.state := by
          unfold stateAt
          rw [hr]
        rw [hsame2, hst] at hsame
        exact ((isOrdinary_iff r).mp hord).1 hsame
      rw [recomputeTotal_cell_other _ _ t ht (hcols2 ▸ hcol) hne, hcell2]
      rfl

/-! ### The cell a finished run holds for a processed forecast month -/

theorem calc_cell_std (df : DataFrame) (am fms : List Ym) (la : Ym)
    (pre post : List Ym) (fm : Ym) (i : ℕ) (r : StateRow)
    (hdecomp : sortYm fms = pre ++ fm :: post)
    (hpost : fm ∉ post)
    (hfm : fm ≠ specialMonth)
    (hrefs : prevYm fm ∈ am ∧ (⟨fm.y - 1, fm.m⟩ : Ym) ∈ am ∧
      prevYm ⟨fm.y - 1, fm.m⟩ ∈ am)
    (hr : nth? (runPrefix df am la pre).rows i = some r)
    (hord : isOrdinary r = true) :
    cellAt (calculate_forecasts df am fms la) i fm =
      .num (stdPolicyValue (findRow (coerceCols am df) "MEMBERSHIP") r fm) := by
  rw [calculate_forecasts_cellAt, hdecomp,
    show pre ++ fm :: post = (pre ++ [fm]) ++ post from by simp,
    runPrefix_append,
    foldSteps_cell_ne _ _ _ post _ i fm (fun f2 h2 => fun hc => hpost (hc ▸ h2)),
    runPrefix_append]
  simp only [List.foldl_cons, List.foldl_nil]
  exact forecastStep_cell_std am la _ fm (runPrefix df am la pre) i r hfm hrefs hr hord

theorem calc_cell_special (df : DataFrame) (am fms : List Ym) (la : Ym)
    (pre post : List Ym) (i : ℕ) (r : StateRow)
    (hdecomp : sortYm fms = pre ++ specialMonth :: post)
    (hpost : specialMonth ∉ post)
    (hrefs : (⟨2024, 8⟩ : Ym) ∈ am)
    (hcol : specialMonth ∈ df.cols)
    (hr : nth? (runPrefix df am la pre).rows i = some r)
    (hord : isOrdinary r = true) :
    cellAt (calculate_forecasts df am fms la) i specialMonth =
      .num (specialPolicyValue (findRow (coerceCols am df) "MEMBERSHIP") la r) := by
  rw [calculate_forecasts_cellAt, hdecomp,
    show pre ++ specialMonth :: post = (pre ++ [specialMonth]) ++ post from by simp,
    runPrefix_append,
    foldSteps_cell_ne _ _ _ post _ i specialMonth
      (fun f2 h2 => fun hc => hpost (hc ▸ h2)),
    runPrefix_append]
  simp only [List.foldl_cons, List.foldl_nil]
  have hcolmid : specialMonth ∈ (runPrefix df am la pre).cols :=
    runPrefix_cols_sub df am la pre hcol
  exact forecastStep_cell_special am la _ (runPrefix df am la pre) i r hrefs
    hcolmid hr hord

/-- C1: for a standard-policy forecast month whose three reference
periods are all known months, the value written for an ordinary region
whose three reference values are present equals
round(max(0, prev + (sameMonthLastYear - prevOfLastYear) *
membership_ratio)), with membership_ratio =
MEMBERSHIP[prev] / MEMBERSHIP[sameMonthLastYear] when that denominator
is present and non-zero and 1.0 otherwise.  The reference values are
read in the state the engine reaches just before processing this month
(earlier forecast months are already filled in). -/
theorem standard_formula (df : DataFrame) (am fms : List Ym) (la : Ym)
    (pre post : List Ym) (fm : Ym) (i : ℕ) (r : StateRow) (vp vs vq : ℚ)
    (hdecomp : sortYm fms = pre ++ fm :: post)
    (hpost : fm ∉ post)
    (hfm : fm ≠ specialMonth)
    (hrefs : prevYm fm ∈ am ∧ (⟨fm.y - 1, fm.m⟩ : Ym) ∈ am ∧
      prevYm ⟨fm.y - 1, fm.m⟩ ∈ am)
    (hr : nth? (runPrefix df am la pre).rows i = some r)
    (hord : isOrdinary r = true)
    (h1 : r.cells (prevYm fm) = .num vp)
    (h2 : r.cells ⟨fm.y - 1, fm.m⟩ = .num vs)
    (h3 : r.cells (prevYm ⟨fm.y - 1, fm.m⟩) = .num vq) :
    stdFormulaSpec df am fms la fm i vp vs vq := by
  unfold stdFormulaSpec
  rw [calc_cell_std df am fms la pre post fm i r hdecomp hpost hfm hrefs hr hord]
  congr 1
  unfold stdPolicyValue stdRowValue
  rw [h1, h2, h3, stdMembershipRatio_eq_claim]
  simp [Cell.isNA, Cell.toQ]

/-- Witness: the standard-formula theorem at the concrete example of the
specification: prev = 100, sameMonthLastYear = 120, prevOfLastYear = 100,
memberships 1000 and 900. -/
theorem standard_formula_witness :
    stdFormulaSpec exStdDf exStdAm [⟨2025, 7⟩] ⟨2025, 6⟩ ⟨2025, 7⟩ 0 100 120 100 :=
  standard_formula exStdDf exStdAm [⟨2025, 7⟩] ⟨2025, 6⟩ [] [] ⟨2025, 7⟩ 0
    exStdCoercedRow 100 120 100 (by decide) (by decide) (by decide)
    ⟨by decide, by decide, by decide⟩ rfl (by decide) (by decide) (by decide)
    (by decide)

/-- C2: for the configured new-cycle boundary month 2025-08, the value
written for an ordinary region equals
round(max(0, sameMonthLastYear * membership_adjustment)), where the
two-step estimated-membership computation collapses algebraically to the
plain ratio MEMBERSHIP[latest_actual] / MEMBERSHIP[2024-08] (1.0 when
that denominator is missing or zero); a region whose 2024-08 value is 0
(in particular one whose cell was absent, which the coercion step turns
into 0) receives a forecast of 0. -/
theorem new_cycle_formula (df : DataFrame) (am fms : List Ym) (la : Ym)
    (pre post : List Ym) (i : ℕ) (r : StateRow) (v : ℚ)
    (hdecomp : sortYm fms = pre ++ specialMonth :: post)
    (hpost : specialMonth ∉ post)
    (hrefs : (⟨2024, 8⟩ : Ym) ∈ am)
    (hcol : specialMonth ∈ df.cols)
    (hr : nth? (runPrefix df am la pre).rows i = some r)
    (hord : isOrdinary r = true)
    (hv : r.cells ⟨2024, 8⟩ = .num v) :
    newCycleSpec df am fms la i v ∧
      (v = 0 →
        cellAt (calculate_forecasts df am fms la) i specialMonth = .num 0) := by
  have hmain : newCycleSpec df am fms la i v := by
    unfold newCycleSpec
    rw [calc_cell_special df am fms la pre post i r hdecomp hpost hrefs hcol hr hord]
    congr 1
    unfold specialPolicyValue specialRowValue
    rw [hv]
    simp only [Cell.isNA, Cell.toQ, Bool.false_eq_true, if_false,
      or_false, false_or]
    rw [pyMaxZ_pyRound, specialAdjustment_eq_claim]
  refine ⟨hmain, ?_⟩
  intro hv0
  unfold newCycleSpec at hmain
  rw [hmain, hv0]
  norm_num [pyMax, pyRound_zero]

/-- Witness: the new-cycle theorem at the concrete example of the
specification: sameMonthLastYear = 200, membership 1100 at the latest
actual and 1000 at 2024-08. -/
theorem new_cycle_formula_witness :
    newCycleSpec exNewDf exNewAm [⟨2025, 8⟩] ⟨2025, 7⟩ 0 200 ∧
      ((200 : ℚ) = 0 →
        cellAt (calculate_forecasts exNewDf exNewAm [⟨2025, 8⟩] ⟨2025, 7⟩) 0
          specialMonth = .num 0) :=
  new_cycle_formula exNewDf exNewAm [⟨2025, 8⟩] ⟨2025, 7⟩ [] [] 0
    exNewCoercedRow 200 (by decide) (by decide) (by decide) (by decide)
    rfl (by decide) (by decide)

/-! ### Non-negativity of every written forecast -/

theorem pyMaxZ_nonneg (w : ℤ) : 0 ≤ pyMaxZ 0 w := by
  unfold pyMaxZ
  split_ifs with h <;> omega

theorem pyMax_zero_nonneg (x : ℚ) : 0 ≤ pyMax 0 x := by
  unfold pyMax
  split_ifs with h
  · exact le_of_lt h
  · exact le_refl 0

theorem intCast_toNat_q {z : ℤ} (h : 0 ≤ z) : ((z.toNat : ℕ) : ℚ) = (z : ℚ) := by
  exact_mod_cast congrArg (fun n : ℤ => (n : ℚ)) (Int.toNat_of_nonneg h)

/-- C9: the cell the forecast engine writes for an ordinary region at a
processed forecast month — under either policy — is a non-negative
integer: the computed value is clamped at zero and rounded. -/
theorem forecast_non_negative (df : DataFrame) (am fms : List Ym) (la : Ym)
    (pre post : List Ym) (fm : Ym) (i : ℕ) (r : StateRow)
    (hdecomp : sortYm fms = pre ++ fm :: post)
    (hpost : fm ∉ post)
    (hproc : (fm = specialMonth ∧ (⟨2024, 8⟩ : Ym) ∈ am ∧ fm ∈ df.cols) ∨
      (fm ≠ specialMonth ∧ prevYm fm ∈ am ∧ (⟨fm.y - 1, fm.m⟩ : Ym) ∈ am ∧
        prevYm ⟨fm.y - 1, fm.m⟩ ∈ am))
    (hr : nth? (runPrefix df am la pre).rows i = some r)
    (hord : isOrdinary r = true) :
    nonNegSpec df am fms la i fm := by
  unfold nonNegSpec
  rcases hproc with ⟨hfm, hrefs, hcol⟩ | ⟨hfm, h1, h2, h3⟩
  · subst hfm
    rw [calc_cell_special df am fms la pre post i r hdecomp hpost hrefs hcol hr hord]
    unfold specialPolicyValue specialRowValue
    by_cases hna : (r.cells ⟨2024, 8⟩).isNA = true
    · rw [if_pos hna]
      exact ⟨0, by norm_num⟩
    · rw [if_neg hna]
      refine ⟨(pyMaxZ 0 (pyRound ((r.cells ⟨2024, 8⟩).toQ *
        specialAdjustment (findRow (coerceCols am df) "MEMBERSHIP") la
          ⟨2024, 8⟩))).toNat, ?_⟩
      rw [intCast_toNat_q (pyMaxZ_nonneg _)]
  · rw [calc_cell_std df am fms la pre post fm i r hdecomp hpost hfm
      ⟨h1, h2, h3⟩ hr hord]
    unfold stdPolicyValue stdRowValue
    by_cases hna : (r.cells (prevYm fm)).isNA = true ∨
        (r.cells ⟨fm.y - 1, fm.m⟩).isNA = true ∨
        (r.cells (prevYm ⟨fm.y - 1, fm.m⟩)).isNA = true
    · rw [if_pos hna]
      exact ⟨0, by norm_num⟩
    · rw [if_neg hna]
      refine ⟨(pyRound (pyMax 0 ((r.cells (prevYm fm)).toQ +
        ((r.cells ⟨fm.y - 1, fm.m⟩).toQ -
          (r.cells (prevYm ⟨fm.y - 1, fm.m⟩)).toQ) *
        stdMembershipRatio (findRow (coerceCols am df) "MEMBERSHIP")
          (prevYm fm) ⟨fm.y - 1, fm.m⟩))).toNat, ?_⟩
      rw [intCast_toNat_q (pyRound_nonneg (pyMax_zero_nonneg _))]

/-- Witness: non-negativity at the standard-formula example. -/
theorem forecast_non_negative_witness :
    nonNegSpec exStdDf exStdAm [⟨2025, 7⟩] ⟨2025, 6⟩ 0 ⟨2025, 7⟩ :=
  forecast_non_negative exStdDf exStdAm [⟨2025, 7⟩] ⟨2025, 6⟩ [] [] ⟨2025, 7⟩ 0
    exStdCoercedRow (by decide) (by decide)
    (Or.inr ⟨by decide, by decide, by decide, by decide⟩) rfl (by decide)

/-! ### Skipping a forecast month whose reference periods are unknown -/

theorem toQ_coerce_cell (am : List Ym) (df : DataFrame) (j : ℕ)
    (rj : StateRow) (hqj : nth? df.rows j = some rj) (m : Ym)
    (hma : m ∈ am) (hmc : m ∈ df.cols) :
    cellAt (coerceCols am df) j m = .num ((cellAt df j m).toQ) := by
  rw [coerceCols_cell am df j rj hqj m, if_pos ⟨hma, hmc⟩]
  unfold cellAt
  rw [hqj]

/-- C6: a standard-policy forecast month with a reference period outside
the matrix's known period range is skipped whole: every row's cell in
that column is exactly the numerically coerced input, with no forecast
written; while any other forecast month of the same run whose reference
periods all exist still receives its standard forecast in every
ordinary region row. -/
theorem skip_on_missing_reference (df : DataFrame) (am fms : List Ym)
    (la : Ym) (pre post : List Ym) (fm : Ym)
    (ham : am = sortYm df.cols)
    (hdecomp : sortYm fms = pre ++ fm :: post)
    (hpre : fm ∉ pre)
    (hpost : fm ∉ post)
    (hfm : fm ≠ specialMonth)
    (hcol : fm ∈ df.cols)
    (hmiss : ¬(prevYm fm ∈ am ∧ (⟨fm.y - 1, fm.m⟩ : Ym) ∈ am ∧
      prevYm ⟨fm.y - 1, fm.m⟩ ∈ am)) :
    skippedPeriodSpec df am fms la fm ∧
    (∀ (fm2 : Ym) (pre2 post2 : List Ym) (i : ℕ) (r : StateRow),
      sortYm fms = pre2 ++ fm2 :: post2 → fm2 ∉ post2 →
      fm2 ≠ specialMonth →
      prevYm fm2 ∈ am → (⟨fm2.y - 1, fm2.m⟩ : Ym) ∈ am →
      prevYm ⟨fm2.y - 1, fm2.m⟩ ∈ am →
      nth? (runPrefix df am la pre2).rows i = some r →
      isOrdinary r = true →
      cellAt (calculate_forecasts df am fms la) i fm2 =
        .num (stdPolicyValue (findRow (coerceCols am df) "MEMBERSHIP") r fm2)) := by
  constructor
  · intro j hj
    rw [calculate_forecasts_cellAt, hdecomp,
      show pre ++ fm :: post = (pre ++ [fm]) ++ post from by simp,
      runPrefix_append,
      foldSteps_cell_ne _ _ _ post _ j fm (fun f2 h2 => fun hc => hpost (hc ▸ h2)),
      runPrefix_append]
    simp only [List.foldl_cons, List.foldl_nil]
    rw [forecastStep_std_skip _ _ _ fm _ hfm hmiss]
    unfold runPrefix
    rw [foldSteps_cell_ne _ _ _ pre _ j fm (fun f2 h2 => fun hc => hpre (hc ▸ h2))]
    obtain ⟨rj, hrj⟩ := nth?_isSome_of_lt df.rows j hj
    exact toQ_coerce_cell am df j rj hrj fm (ham ▸ mem_sortYm.mpr hcol) hcol
  · intro fm2 pre2 post2 i r hdecomp2 hpost2 hfm2 ha hb hc hr hord
    exact calc_cell_std df am fms la pre2 post2 fm2 i r hdecomp2 hpost2 hfm2
      ⟨ha, hb, hc⟩ hr hord

/-- Witness: in one run, 2023-05 (whose reference months 2023-04,
2022-05 and 2022-04 are outside the range) is skipped, while the other
forecast month 2025-07 is still eligible for its standard forecast. -/
theorem skip_on_missing_reference_witness :
    skippedPeriodSpec exSkipDf exSkipAm [⟨2023, 5⟩, ⟨2025, 7⟩] ⟨2025, 6⟩ ⟨2023, 5⟩ ∧
    (∀ (fm2 : Ym) (pre2 post2 : List Ym) (i : ℕ) (r : StateRow),
      sortYm [⟨2023, 5⟩, ⟨2025, 7⟩] = pre2 ++ fm2 :: post2 → fm2 ∉ post2 →
      fm2 ≠ specialMonth →
      prevYm fm2 ∈ exSkipAm → (⟨fm2.y - 1, fm2.m⟩ : Ym) ∈ exSkipAm →
      prevYm ⟨fm2.y - 1, fm2.m⟩ ∈ exSkipAm →
      nth? (runPrefix exSkipDf exSkipAm ⟨2025, 6⟩ pre2).rows i = some r →
      isOrdinary r = true →
      cellAt (calculate_forecasts exSkipDf exSkipAm [⟨2023, 5⟩, ⟨2025, 7⟩]
          ⟨2025, 6⟩) i fm2 =
        .num (stdPolicyValue
          (findRow (coerceCols exSkipAm exSkipDf) "MEMBERSHIP") r fm2)) :=
  skip_on_missing_reference exSkipDf exSkipAm [⟨2023, 5⟩, ⟨2025, 7⟩]
    ⟨2025, 6⟩ [] [⟨2025, 7⟩] ⟨2023, 5⟩ (by decide) (by decide) (by decide)
    (by decide) (by decide) (by decide) (by decide)

/-! ### A missing reference cell is coerced to zero, not skipped -/

theorem toQ_zero_of_not_num (c : Cell) (h : c.isNum = false) : c.toQ = 0 := by
  cases c <;> simp_all [Cell.isNum, Cell.toQ]

/-- C5 (amended): when a region's reference cell (here prevOfLastYear)
is absent in the input, the coercion preamble turns it into 0 and the
standard formula is still applied with that 0 — the region is not given
a fixed 0 forecast; it receives
round(max(0, prev + (sameMonthLastYear - 0) * membership_ratio)). -/
theorem std_missing_cell_treated_zero (df : DataFrame) (am fms : List Ym)
    (la : Ym) (pre post : List Ym) (fm : Ym) (i : ℕ) (r : StateRow)
    (vp vs : ℚ)
    (ham : am = sortYm df.cols)
    (hdecomp : sortYm fms = pre ++ fm :: post)
    (hpost : fm ∉ post)
    (hfm : fm ≠ specialMonth)
    (hrefs : prevYm fm ∈ am ∧ (⟨fm.y - 1, fm.m⟩ : Ym) ∈ am ∧
      prevYm ⟨fm.y - 1, fm.m⟩ ∈ am)
    (hplynf : prevYm ⟨fm.y - 1, fm.m⟩ ∉ fms)
    (hilen : i < df.rows.length)
    (habs : (cellAt df i (prevYm ⟨fm.y - 1, fm.m⟩)).isNum = false)
    (hr : nth? (runPrefix df am la pre).rows i = some r)
    (hord : isOrdinary r = true)
    (h1 : r.cells (prevYm fm) = .num vp)
    (h2 : r.cells ⟨fm.y - 1, fm.m⟩ = .num vs) :
    stdFormulaSpec df am fms la fm i vp vs 0 := by
  have hply_col : prevYm ⟨fm.y - 1, fm.m⟩ ∈ df.cols :=
    mem_sortYm.mp (ham ▸ hrefs.2.2)
  have hmid : cellAt (runPrefix df am la pre) i (prevYm ⟨fm.y - 1, fm.m⟩) =
      .num 0 := by
    unfold runPrefix
    rw [foldSteps_cell_ne _ _ _ pre _ i _ (fun f2 h2 => by
      intro hc
      refine hplynf ?_
      rw [hc]
      refine mem_sortYm.mp ?_
      rw [hdecomp]
      exact List.mem_append_left _ h2)]
    obtain ⟨rj, hrj⟩ := nth?_isSome_of_lt df.rows i hilen
    rw [toQ_coerce_cell am df i rj hrj _ hrefs.2.2 hply_col]
    rw [toQ_zero_of_not_num _ habs]
  have h3 : r.cells (prevYm ⟨fm.y - 1, fm.m⟩) = .num 0 := by
    have hcr : cellAt (runPrefix df am la pre) i (prevYm ⟨fm.y - 1, fm.m⟩) =
        r.cells (prevYm ⟨fm.y - 1, fm.m⟩) := by
      unfold cellAt
      rw [hr]
    rw [hcr] at hmid
    exact hmid
  unfold stdFormulaSpec
  rw [calc_cell_std df am fms la pre post fm i r hdecomp hpost hfm hrefs hr hord]
  congr 1
  unfold stdPolicyValue stdRowValue
  rw [h1, h2, h3, stdMembershipRatio_eq_claim]
  simp [Cell.isNA, Cell.toQ]

/-- Witness: the amended missing-cell behaviour at the concrete example
matrix whose prevOfLastYear cell is absent. -/
theorem std_missing_cell_treated_zero_witness :
    stdFormulaSpec exMissDf exStdAm [⟨2025, 7⟩] ⟨2025, 6⟩ ⟨2025, 7⟩ 0 100 120 0 :=
  std_missing_cell_treated_zero exMissDf exStdAm [⟨2025, 7⟩] ⟨2025, 6⟩ [] []
    ⟨2025, 7⟩ 0 exMissCoercedRow 100 120 (by decide) (by decide) (by decide)
    (by decide) ⟨by decide, by decide, by decide⟩ (by decide) (by decide)
    (by decide) rfl (by decide) (by decide) (by decide)

/-- C5 counterexample: the region's prevOfLastYear cell (2024-06) is
absent, yet the value written for (region, 2025-07) is 220, not the 0
the claim asserts: the absent value is coerced to 0 and the formula
100 + (120 - 0) * 1 still runs. -/
theorem std_missing_cell_counterexample :
    cellAt exMissDf 0 ⟨2024, 6⟩ = Cell.na ∧
    cellAt (calculate_forecasts exMissDf exStdAm [⟨2025, 7⟩] ⟨2025, 6⟩) 0
      ⟨2025, 7⟩ = .num 220 ∧
    Cell.num (220 : ℚ) ≠ Cell.num 0 := by
  refine ⟨by decide, ?_, by decide⟩
  rw [calc_cell_std exMissDf exStdAm [⟨2025, 7⟩] ⟨2025, 6⟩ [] [] ⟨2025, 7⟩ 0
    exMissCoercedRow (by decide) (by decide) (by decide)
    ⟨by decide, by decide, by decide⟩ rfl (by decide)]
  congr 1
  rw [show findRow (coerceCols exStdAm exMissDf) "MEMBERSHIP" = none from rfl]
  unfold stdPolicyValue stdRowValue stdMembershipRatio
  rw [show exMissCoercedRow.cells (prevYm ⟨2025, 7⟩) = Cell.num 100 from by decide]
  rw [show exMissCoercedRow.cells (⟨(⟨2025, 7⟩ : Ym).y - 1, (⟨2025, 7⟩ : Ym).m⟩ : Ym) =
    Cell.num 120 from by decide]
  rw [show exMissCoercedRow.cells (prevYm ⟨(⟨2025, 7⟩ : Ym).y - 1, (⟨2025, 7⟩ : Ym).m⟩) =
    Cell.num 0 from by decide]
  simp only [Cell.isNA, Cell.toQ, Bool.false_eq_true, if_false, or_self]
  rw [show (100 : ℚ) + (120 - 0) * 1 = ((220 : ℤ) : ℚ) from by norm_num]
  rw [show pyMax 0 ((220 : ℤ) : ℚ) = ((220 : ℤ) : ℚ) from by
    unfold pyMax
    norm_num]
  rw [pyRound_intCast]
  norm_num

/-! ### MEMBERSHIP rows are never forecast -/

theorem isOrdinary_false_of_membership (r : StateRow)
    (h : r.state = "MEMBERSHIP") : isOrdinary r = false := by
  simp [isOrdinary, h]

theorem processed_cell_not_ordinary_not_total (fm : Ym) (val : StateRow → ℚ)
    (df : DataFrame) (j : ℕ) (r : StateRow)
    (hcol : fm ∈ df.cols)
    (hr : nth? df.rows j = some r)
    (hno : isOrdinary r = false)
    (hnt : r.state ≠ "TOTAL") :
    cellAt (recomputeTotal fm (forEachOrdinary fm val df)) j fm =
      cellAt df j fm := by
  have hcols2 : (forEachOrdinary fm val df).cols = df.cols :=
    forEachOrdinary_cols fm val df hcol
  have hcell2 : cellAt (forEachOrdinary fm val df) j fm = cellAt df j fm :=
    forEachOrdinary_cell_notord fm val df hcol j r hr hno
  cases ht : findTotalIdx (forEachOrdinary fm val df).rows with
  | none => rw [recomputeTotal_of_none fm _ ht, hcell2]
  | some t =>
      have hne : j ≠ t := by
        obtain ⟨rt, hrt, hst⟩ :=
          findTotalIdx_some_row (forEachOrdinary fm val df).rows t ht
        intro hc
        subst hc
        have hs1 : stateAt (forEachOrdinary fm val df) j = rt.state := by
          unfold stateAt
          rw [hrt]
        rw [forEachOrdinary_state fm val df hcol j] at hs1
        have hs2 : stateAt df j = r.state := by
          unfold stateAt
          rw [hr]
        rw [hs2, hst] at hs1
        exact hnt hs1
      rw [recomputeTotal_cell_other fm _ t ht (hcols2 ▸ hcol) hne, hcell2]

theorem forecastStep_cell_membership (am : List Ym) (la : Ym)
    (mr : Option StateRow) (fm : Ym) (df : DataFrame) (j : ℕ)
    (hj : j < df.rows.length) (hst : stateAt df j = "MEMBERSHIP")
    (m : Ym) (hm : m ∈ df.cols) :
    cellAt (forecastStep am la mr fm df) j m = cellAt df j m := by
  by_cases hmf : m = fm
  · subst hmf
    obtain ⟨r, hr⟩ := nth?_isSome_of_lt df.rows j hj
    have hrst : r.state = "MEMBERSHIP" := by
      unfold stateAt at hst
      rw [hr] at hst
      exact hst
    have hno : isOrdinary r = false := isOrdinary_false_of_membership r hrst
    have hnt : r.state ≠ "TOTAL" := by rw [hrst]; decide
    by_cases hfm : m = specialMonth
    · subst hfm
      by_cases hrefs : (⟨2024, 8⟩ : Ym) ∈ am
      · rw [forecastStep_special_eq am la mr df hrefs]
        exact processed_cell_not_ordinary_not_total _ _ df j r hm hr hno hnt
      · rw [forecastStep_special_skip am la mr df hrefs]
    · by_cases hrefs : prevYm m ∈ am ∧ (⟨m.y - 1, m.m⟩ : Ym) ∈ am ∧
          prevYm ⟨m.y - 1, m.m⟩ ∈ am
      · rw [forecastStep_std_eq am la mr m df hfm hrefs,
          ensureCol0_cols_of_mem df m hm]
        exact processed_cell_not_ordinary_not_total _ _ df j r hm hr hno hnt
      · rw [forecastStep_std_skip am la mr m df hfm hrefs]
  · exact forecastStep_cell_ne am la mr fm df j hmf

theorem foldSteps_cell_membership (am : List Ym) (la : Ym)
    (mr : Option StateRow) :
    ∀ (l : List Ym) (df : DataFrame) (j : ℕ), j < df.rows.length →
      stateAt df j = "MEMBERSHIP" → ∀ m, m ∈ df.cols →
      cellAt (l.foldl (fun d fm => forecastStep am la mr fm d) df) j m =
        cellAt df j m := by
  intro l
  induction l with
  | nil => intro df j _ _ m _; rfl
  | cons fm l ih =>
      intro df j hj hst m hm
      rw [List.foldl_cons]
      have hlen2 : j < (forecastStep am la mr fm df).rows.length := by
        rw [forecastStep_length]; exact hj
      have hst2 : stateAt (forecastStep am la mr fm df) j = "MEMBERSHIP" := by
        rw [forecastStep_state]; exact hst
      have hm2 : m ∈ (forecastStep am la mr fm df).cols :=
        forecastStep_cols_sub am la mr fm df hm
      rw [ih _ j hlen2 hst2 m hm2,
        forecastStep_cell_membership am la mr fm df j hj hst m hm]

/-- C10: `calculate_forecasts` never touches the identifier column; a
numeric cell of a non-forecast period column keeps its value, and blank
or non-numeric cells of such columns come out as 0 (the numeric
coercion); a MEMBERSHIP row is likewise only coerced (never forecast)
in every period column, including forecast columns. -/
theorem calculate_forecasts_frame (df : DataFrame) (am fms : List Ym)
    (la : Ym) (ham : am = sortYm df.cols) : frameSpec df am fms la := by
  refine ⟨?_, ?_, ?_, ?_⟩
  · have h : (calculate_forecasts df am fms la).rows.length =
        (runPrefix df am la (sortYm fms)).rows.length := by
      rw [calculate_forecasts_rows]
    rw [h, runPrefix_length]
  · intro j
    rw [calculate_forecasts_stateAt, runPrefix_state]
  · intro m hmc hmf j hj
    rw [calculate_forecasts_cellAt]
    unfold runPrefix
    rw [foldSteps_cell_ne _ _ _ (sortYm fms) _ j m
      (fun f2 h2 => fun hc => hmf (hc ▸ mem_sortYm.mp h2))]
    obtain ⟨rj, hrj⟩ := nth?_isSome_of_lt df.rows j hj
    exact toQ_coerce_cell am df j rj hrj m (ham ▸ mem_sortYm.mpr hmc) hmc
  · intro j hj hst m hmc
    rw [calculate_forecasts_cellAt]
    unfold runPrefix
    have hjc : j < (coerceCols am df).rows.length := by
      rw [coerceCols_length]; exact hj
    have hstc : stateAt (coerceCols am df) j = "MEMBERSHIP" := by
      rw [coerceCols_state]; exact hst
    have hmcc : m ∈ (coerceCols am df).cols := by
      rw [coerceCols_cols]; exact hmc
    rw [foldSteps_cell_membership _ _ _ (sortYm fms) _ j hjc hstc m hmcc]
    obtain ⟨rj, hrj⟩ := nth?_isSome_of_lt df.rows j hj
    exact toQ_coerce_cell am df j rj hrj m (ham ▸ mem_sortYm.mpr hmc) hmc

/-- Witness: the frame property at the standard-formula example matrix
(its column list is already chronologically sorted, so it equals its
own sort). -/
theorem calculate_forecasts_frame_witness :
    frameSpec exStdDf exStdAm [⟨2025, 7⟩] ⟨2025, 6⟩ :=
  calculate_forecasts_frame exStdDf exStdAm [⟨2025, 7⟩] ⟨2025, 6⟩ (by decide)

/-! ### The TOTAL-row invariant -/

theorem isOrdinary_congr_state {r1 r2 : StateRow} (h : r1.state = r2.state) :
    isOrdinary r1 = isOrdinary r2 := by
  unfold isOrdinary
  rw [h]

theorem nthState_congr (df1 df2 : DataFrame)
    (hst : ∀ j, stateAt df1 j = stateAt df2 j) :
    ∀ j r1 r2, nth? df1.rows j = some r1 → nth? df2.rows j = some r2 →
      r1.state = r2.state := by
  intro j r1 r2 h1 h2
  have := hst j
  unfold stateAt at this
  rw [h1, h2] at this
  exact this

theorem ordSumL_congr :
    ∀ (rs1 rs2 : List StateRow) (m : Ym),
      rs1.length = rs2.length →
      (∀ j r1 r2, nth? rs1 j = some r1 → nth? rs2 j = some r2 →
        r1.state = r2.state ∧
          (isOrdinary r1 = true → (r1.cells m).toQ = (r2.cells m).toQ)) →
      ((rs1.filter (fun r => isOrdinary r)).map (fun r => (r.cells m).toQ)).sum =
        ((rs2.filter (fun r => isOrdinary r)).map (fun r => (r.cells m).toQ)).sum := by
  intro rs1
  induction rs1 with
  | nil =>
      intro rs2 m hlen _
      cases rs2 with
      | nil => rfl
      | cons _ _ => simp at hlen
  | cons r1 rs1 ih =>
      intro rs2 m hlen hc
      cases rs2 with
      | nil => simp at hlen
      | cons r2 rs2 =>
          have hhead := hc 0 r1 r2 rfl rfl
          have htail := ih rs2 m (by simpa using hlen)
            (fun j a b ha hb => hc (j + 1) a b ha hb)
          by_cases hord : isOrdinary r1 = true
          · have hord2 : isOrdinary r2 = true := by
              rw [← isOrdinary_congr_state hhead.1]; exact hord
            rw [List.filter_cons, List.filter_cons]
            simp only [hord, hord2, if_true]
            rw [List.map_cons, List.map_cons, List.sum_cons, List.sum_cons,
              hhead.2 hord, htail]
          · have hord2 : ¬isOrdinary r2 = true := by
              rw [← isOrdinary_congr_state hhead.1]; exact hord
            rw [List.filter_cons, List.filter_cons]
            simp only [hord, hord2, if_false]
            exact htail

theorem ordSum_congr (df1 df2 : DataFrame) (m : Ym)
    (hlen : df1.rows.length = df2.rows.length)
    (hst : ∀ j, stateAt df1 j = stateAt df2 j)
    (hcell : ∀ j r1, nth? df1.rows j = some r1 → isOrdinary r1 = true →
      (cellAt df1 j m).toQ = (cellAt df2 j m).toQ) :
    ordSum df1 m = ordSum df2 m := by
  unfold ordSum
  refine ordSumL_congr df1.rows df2.rows m hlen ?_
  intro j r1 r2 h1 h2
  refine ⟨nthState_congr df1 df2 hst j r1 r2 h1 h2, ?_⟩
  intro hord
  have := hcell j r1 h1 hord
  unfold cellAt at this
  rw [h1, h2] at this
  exact this

theorem findRow_eq_total_idx (df : DataFrame) :
    findRow df "TOTAL" = (findTotalIdx df.rows).bind (nth? df.rows) := by
  unfold findRow
  exact findRow_total_eq_idx df.rows

theorem findTotalIdx_eq_of_frames (df1 df2 : DataFrame)
    (hlen : df1.rows.length = df2.rows.length)
    (hst : ∀ j, stateAt df1 j = stateAt df2 j) :
    findTotalIdx df1.rows = findTotalIdx df2.rows :=
  findTotalIdx_congr df1.rows df2.rows hlen (nthState_congr df1 df2 hst)

/-- After one processed forecast month (rows pass followed by the TOTAL
recomputation) the TOTAL-row invariant holds again in every column. -/
theorem processed_totalsInvariant (fm : Ym) (val : StateRow → ℚ)
    (df : DataFrame) (hcol : fm ∈ df.cols) (hinv : totalsInvariant df) :
    totalsInvariant (recomputeTotal fm (forEachOrdinary fm val df)) := by
  have hlen2 : (forEachOrdinary fm val df).rows.length = df.rows.length :=
    forEachOrdinary_length fm val df hcol
  have hst2 : ∀ j, stateAt (forEachOrdinary fm val df) j = stateAt df j :=
    forEachOrdinary_state fm val df hcol
  have hcols2 : (forEachOrdinary fm val df).cols = df.cols :=
    forEachOrdinary_cols fm val df hcol
  intro m hm tr htr
  cases ht : findTotalIdx (forEachOrdinary fm val df).rows with
  | none =>
      rw [recomputeTotal_of_none fm _ ht] at htr
      rw [findRow_eq_total_idx, ht] at htr
      exact absurd htr (by simp)
  | some t =>
      have hlenf : (recomputeTotal fm (forEachOrdinary fm val df)).rows.length =
          (forEachOrdinary fm val df).rows.length := recomputeTotal_length fm _
      have hstf : ∀ j, stateAt (recomputeTotal fm (forEachOrdinary fm val df)) j =
          stateAt (forEachOrdinary fm val df) j := recomputeTotal_state fm _
      have htf : findTotalIdx (recomputeTotal fm (forEachOrdinary fm val df)).rows =
          some t :=
        (findTotalIdx_eq_of_frames _ _ hlenf hstf).trans ht
      have hfr : findRow (recomputeTotal fm (forEachOrdinary fm val df)) "TOTAL" =
          nth? (recomputeTotal fm (forEachOrdinary fm val df)).rows t := by
        rw [findRow_eq_total_idx, htf]
        rfl
      rw [hfr] at htr
      obtain ⟨rt, hrt, hstt⟩ :=
        findTotalIdx_some_row (forEachOrdinary fm val df).rows t ht
      have hcolf : fm ∈ (forEachOrdinary fm val df).cols := hcols2 ▸ hcol
      have hmdf : m ∈ df.cols := by
        rw [recomputeTotal_cols_of_mem fm _ hcolf, hcols2] at hm
        exact hm
      by_cases hmf : m = fm
      · subst hmf
        have hcell : cellAt (recomputeTotal m (forEachOrdinary m val df)) t m =
            .num ((((forEachOrdinary m val df).rows.filter
              (fun r => isOrdinary r)).map (fun r => (r.cells m).toQ)).sum) :=
          recomputeTotal_total_cell m _ t ht
        have htr2 : tr.cells m =
            .num ((((forEachOrdinary m val df).rows.filter
              (fun r => isOrdinary r)).map (fun r => (r.cells m).toQ)).sum) := by
          unfold cellAt at hcell
          rw [htr] at hcell
          exact hcell
        rw [htr2]
        show ordSum (forEachOrdinary m val df) m =
          ordSum (recomputeTotal m (forEachOrdinary m val df)) m
        refine ordSum_congr (forEachOrdinary m val df)
          (recomputeTotal m (forEachOrdinary m val df)) m hlenf.symm
          (fun j => (hstf j).symm) ?_
        intro j r1 hr1 hord1
        have hjt : j ≠ t := by
          intro hc
          subst hc
          rw [hr1] at hrt
          injection hrt with hrt
          rw [← hrt] at hstt
          exact ((isOrdinary_iff r1).mp hord1).1 hstt
        rw [recomputeTotal_cell_other m _ t ht hcolf hjt]
      · have htdf : findTotalIdx df.rows = some t :=
          (findTotalIdx_eq_of_frames (forEachOrdinary fm val df) df hlen2 hst2).symm.trans ht
        obtain ⟨tr0, hnth0, _⟩ := findTotalIdx_some_row df.rows t htdf
        have hfr0 : findRow df "TOTAL" = some tr0 := by
          rw [findRow_eq_total_idx, htdf]
          exact hnth0
        have hbase := hinv m hmdf tr0 hfr0
        have hchain : tr.cells m = cellAt df t m := by
          have e1 : cellAt (recomputeTotal fm (forEachOrdinary fm val df)) t m =
              tr.cells m := by
            unfold cellAt
            rw [htr]
          rw [← e1, recomputeTotal_cell_ne fm _ t hmf,
            forEachOrdinary_cell_ne fm val df hcol t hmf]
        have hsum : ordSum (recomputeTotal fm (forEachOrdinary fm val df)) m =
            ordSum df m := by
          refine ordSum_congr _ df m (hlenf.trans hlen2)
            (fun j => (hstf j).trans (hst2 j)) ?_
          intro j r1 _ _
          rw [recomputeTotal_cell_ne fm _ j hmf,
            forEachOrdinary_cell_ne fm val df hcol j hmf]
        rw [hchain, hsum]
        have : cellAt df t m = tr0.cells m := by
          unfold cellAt
          rw [hnth0]
        rw [this]
        exact hbase

theorem forecastStep_totalsInvariant (am : List Ym) (la : Ym)
    (mr : Option StateRow) (fm : Ym) (df : DataFrame)
    (hcol : fm ∈ df.cols) (hinv : totalsInvariant df) :
    totalsInvariant (forecastStep am la mr fm df) := by
  by_cases hfm : fm = specialMonth
  · subst hfm
    by_cases hrefs : (⟨2024, 8⟩ : Ym) ∈ am
    · rw [forecastStep_special_eq am la mr df hrefs]
      exact processed_totalsInvariant specialMonth _ df hcol hinv
    · rw [forecastStep_special_skip am la mr df hrefs]
      exact hinv
  · by_cases hrefs : prevYm fm ∈ am ∧ (⟨fm.y - 1, fm.m⟩ : Ym) ∈ am ∧
        prevYm ⟨fm.y - 1, fm.m⟩ ∈ am
    · rw [forecastStep_std_eq am la mr fm df hfm hrefs,
        ensureCol0_cols_of_mem df fm hcol]
      exact processed_totalsInvariant fm _ df hcol hinv
    · rw [forecastStep_std_skip am la mr fm df hfm hrefs]
      exact hinv

theorem find?_state_map (f : StateRow → StateRow)
    (hf : ∀ r, (f r).state = r.state) (s : String) :
    ∀ rows : List StateRow,
      (rows.map f).find? (fun r => r.state == s) =
        (rows.find? (fun r => r.state == s)).map f := by
  intro rows
  induction rows with
  | nil => rfl
  | cons r rs ih =>
      rw [List.map_cons, List.find?_cons, List.find?_cons]
      by_cases h : (r.state == s) = true
      · have h2 : ((f r).state == s) = true := by rw [hf]; exact h
        rw [h, h2]
        rfl
      · have h1 : (r.state == s) = false := by simpa using h
        have h2 : ((f r).state == s) = false := by rw [hf]; exact h1
        rw [h1, h2]
        exact ih

theorem toQ_coerce_collapse (b : Prop) [Decidable b] (c : Cell) :
    (if b then Cell.num c.toQ else c).toQ = c.toQ := by
  by_cases hb : b
  · rw [if_pos hb]
    rfl
  · rw [if_neg hb]

theorem coerce_totalsInvariant (am : List Ym) (df : DataFrame)
    (hinv : totalsInvariant df) : totalsInvariant (coerceCols am df) := by
  intro m hm tr htr
  rw [coerceCols_cols] at hm
  have hmap : findRow (coerceCols am df) "TOTAL" =
      (findRow df "TOTAL").map (fun r =>
        { r with cells := fun m2 =>
            if m2 ∈ am ∧ m2 ∈ df.cols then .num ((r.cells m2).toQ)
            else r.cells m2 }) := by
    unfold findRow coerceCols
    exact find?_state_map
      (fun r =>
        { r with cells := fun m2 =>
            if m2 ∈ am ∧ m2 ∈ df.cols then .num ((r.cells m2).toQ)
            else r.cells m2 })
      (fun r => rfl) "TOTAL" df.rows
  rw [hmap] at htr
  cases hfr : findRow df "TOTAL" with
  | none => rw [hfr] at htr; exact absurd htr (by simp)
  | some tr0 =>
      rw [hfr] at htr
      simp only [Option.map_some'] at htr
      injection htr with htr
      have hbase := hinv m hm tr0 hfr
      have h1 : (tr.cells m).toQ = (tr0.cells m).toQ := by
        rw [← htr]
        exact toQ_coerce_collapse _ _
      have h2 : ordSum (coerceCols am df) m = ordSum df m := by
        refine ordSum_congr (coerceCols am df) df m (coerceCols_length am df)
          (coerceCols_state am df) ?_
        intro j r1 hr1 _
        have hj : j < df.rows.length := by
          have := nth?_lt_of_some _ _ _ hr1
          rw [coerceCols_length] at this
          exact this
        obtain ⟨rj, hrj⟩ := nth?_isSome_of_lt df.rows j hj
        rw [coerceCols_cell am df j rj hrj m]
        show (if m ∈ am ∧ m ∈ df.cols then Cell.num (rj.cells m).toQ
          else rj.cells m).toQ = (cellAt df j m).toQ
        rw [toQ_coerce_collapse]
        unfold cellAt
        rw [hrj]
  -- close: (tr.cells m).toQ = ordSum (coerceCols am df) m
      rw [h1, h2]
      exact hbase

theorem foldSteps_totalsInvariant (am : List Ym) (la : Ym)
    (mr : Option StateRow) :
    ∀ (l : List Ym) (df : DataFrame), (∀ fm ∈ l, fm ∈ df.cols) →
      totalsInvariant df →
      totalsInvariant (l.foldl (fun d fm => forecastStep am la mr fm d) df) := by
  intro l
  induction l with
  | nil => intro df _ hinv; exact hinv
  | cons fm l ih =>
      intro df hmem hinv
      rw [List.foldl_cons]
      have hcol : fm ∈ df.cols := hmem fm (List.mem_cons_self fm l)
      have hcols : (forecastStep am la mr fm df).cols = df.cols :=
        forecastStep_cols_of_mem am la mr fm df hcol
      exact ih _ (fun f2 h2 => hcols ▸ hmem f2 (List.mem_cons_of_mem fm h2))
        (forecastStep_totalsInvariant am la mr fm df hcol hinv)

theorem reorder_totalsInvariant (df : DataFrame)
    (hinv : totalsInvariant df) :
    totalsInvariant { df with cols := sortYm df.cols } := by
  intro m hm tr htr
  exact hinv m (mem_sortYm.mp hm) tr htr

theorem calculate_forecasts_totalsInvariant (df : DataFrame)
    (am fms : List Ym) (la : Ym)
    (hfms : ∀ fm ∈ fms, fm ∈ df.cols) (hinv : totalsInvariant df) :
    totalsInvariant (calculate_forecasts df am fms la) := by
  have h1 : totalsInvariant (coerceCols am df) :=
    coerce_totalsInvariant am df hinv
  have h2 : ∀ fm ∈ sortYm fms, fm ∈ (coerceCols am df).cols := by
    intro fm h
    rw [coerceCols_cols]
    exact hfms fm (mem_sortYm.mp h)
  have h3 := foldSteps_totalsInvariant am la
    (findRow (coerceCols am df) "MEMBERSHIP") (sortYm fms) (coerceCols am df)
    h2 h1
  exact reorder_totalsInvariant _ h3

theorem buildActuals_totalsInvariant (regions : List StateRow)
    (mem : Ym → Cell) (months : List Ym)
    (h : ∀ r ∈ regions, r.state ≠ "TOTAL" ∧ r.state ≠ "MEMBERSHIP") :
    totalsInvariant (buildActuals regions mem months) := by
  intro m _ tr htr
  have hnone : regions.find? (fun r => r.state == "TOTAL") = none :=
    List.find?_eq_none.mpr (fun r hr => by simp [(h r hr).1])
  have hfr : findRow (buildActuals regions mem months) "TOTAL" =
      some { state := "TOTAL"
             cells := fun m2 =>
               .num ((regions.map (fun r => (r.cells m2).toQ)).sum) } := by
    unfold findRow buildActuals
    rw [List.find?_append, hnone]
    rfl
  rw [hfr] at htr
  injection htr with htr
  rw [← htr]
  show ((regions.map (fun r => (r.cells m).toQ)).sum) =
    ordSum (buildActuals regions mem months) m
  unfold ordSum buildActuals
  rw [List.filter_append,
    List.filter_eq_self.mpr (fun r hr => (isOrdinary_iff r).mpr (h r hr)),
    show List.filter (fun r => isOrdinary r)
        [({ state := "TOTAL"
            cells := fun m2 =>
              .num ((regions.map (fun r => (r.cells m2).toQ)).sum) } : StateRow),
         { state := "MEMBERSHIP", cells := mem }] = [] from rfl,
    List.append_nil]

/-- C4: in the actuals artifact, the TOTAL row holds for every period
exactly the sum of the numerically read ordinary-region values; and
`calculate_forecasts` preserves that invariant for every period column
(for forecast periods it is restored by recomputing TOTAL after each
processed month). -/
theorem total_row_invariant :
    (∀ (regions : List StateRow) (mem : Ym → Cell) (months : List Ym),
      (∀ r ∈ regions, r.state ≠ "TOTAL" ∧ r.state ≠ "MEMBERSHIP") →
      totalsInvariant (buildActuals regions mem months)) ∧
    (∀ (df : DataFrame) (am fms : List Ym) (la : Ym),
      (∀ fm ∈ fms, fm ∈ df.cols) → totalsInvariant df →
      totalsInvariant (calculate_forecasts df am fms la)) :=
  ⟨buildActuals_totalsInvariant, calculate_forecasts_totalsInvariant⟩

/-- Witness: the invariant at a concrete actuals matrix and at the
forecast run over it. -/
theorem total_row_invariant_witness :
    totalsInvariant (buildActuals [exStdRow0] (fun _ => Cell.num 1) exStdAm) ∧
    totalsInvariant (calculate_forecasts
      (buildActuals [exStdRow0] (fun _ => Cell.num 1) exStdAm)
      exStdAm [⟨2025, 7⟩] ⟨2025, 6⟩) :=
  ⟨total_row_invariant.1 [exStdRow0] (fun _ => Cell.num 1) exStdAm (by decide),
   total_row_invariant.2 (buildActuals [exStdRow0] (fun _ => Cell.num 1) exStdAm)
     exStdAm [⟨2025, 7⟩] ⟨2025, 6⟩ (by decide)
     (total_row_invariant.1 [exStdRow0] (fun _ => Cell.num 1) exStdAm (by decide))⟩
